import Mathlib

/-!
Verification development for a small C-subset compiler
(lexer → parser → variable resolution → three-address code → x86-64 emission).

The definitions below are a shallow embedding of the C++ sources:
  * tokens and lexing        — src/compiler/lexer.hpp, src/unnamed/part_039
  * parser                   — src/unnamed/part_026 (the Parser::Impl revision)
  * variable resolution      — src/cpp/compiler/variable_resolution.cpp
  * three-address lowering   — src/cpp/compiler/tac.hpp, src/cpp/compiler/tac_visitor.cpp
  * assembly emission        — src/unnamed/part_017 (DEBUG = false)
  * driver                   — src/unnamed/part_011 (compile), part_000 (main),
                               FunctionDefinitionNode::generate (ast_nodes.cpp)

Machine integers are modelled as Nat with explicit reduction mod 2^32 where the
C++ uses 32-bit arithmetic.  Exceptions are modelled with Except; source positions
and the exact diagnostic strings are elided (errors keep their kind and a short
fixed message), since no property below depends on the message text.
-/

set_option maxRecDepth 20000

namespace Compiler

/-- Word size constant: 2^32, the modulus of `unsigned int` / 32-bit registers. -/
def M32 : Nat := 4294967296

/-- 2^31, the boundary between nonnegative and negative in signed 32-bit. -/
def M31 : Nat := 2147483648

/-- Interpret a Nat below 2^32 as a signed two's-complement 32-bit integer. -/
def toInt32 (n : Nat) : Int :=
  if n < M31 then (n : Int) else (n : Int) - (M32 : Int)

/-- Encode an Int as its two's-complement 32-bit representative (a Nat < 2^32). -/
def toNat32 (i : Int) : Nat := (i % (M32 : Int)).toNat

/-- Keywords (lexer.hpp).  The head revision of the dump declares RETURN and INT;
the entries from IF onward are required by the parser in src/unnamed/part_026
(`Keyword::IF`, `Keyword::WHILE`, ...) whose matching lexer.hpp revision is not in
the dump; they follow the keyword list of the spec, section 6.2. -/
inductive Keyword
  | RETURN
  | INT
  | IF
  | ELSE
  | WHILE
  | DO
  | FOR
  | BREAK
  | CONTINUE
  deriving DecidableEq, Repr

/-- Punctuator symbols (lexer.hpp). -/
inductive Symbol
  | MINUS
  | PLUS
  | TILDE
  | EXCLAMATION_MARK
  | DOUBLE_MINUS
  | DOUBLE_PLUS
  | ASTERISK
  | FORWARD_SLASH
  | PERCENTAGE
  | CARET
  | AMPERSAND
  | PIPE
  | DOUBLE_LESS_THAN
  | DOUBLE_GREATER_THAN
  | DOUBLE_AMPERSAND
  | DOUBLE_PIPE
  | DOUBLE_EQUALS
  | NOT_EQUALS
  | LESS_THAN_OR_EQUAL
  | GREATER_THAN_OR_EQUAL
  | LESS_THAN
  | GREATER_THAN
  | EQUALS
  | QUESTION_MARK
  | OPEN_BRACE
  | CLOSED_BRACE
  | OPEN_PAREN
  | CLOSED_PAREN
  | SEMICOLON
  | COLON
  deriving DecidableEq, Repr

/-- The numeric enumerator values of `enum class Symbol` (lexer.hpp):
`_UNARY_BEGIN = 99`, `_BINARY_BEGIN = 199`, `_MISC_BEGIN = 299`, members in
declaration order.  QUESTION_MARK and COLON are absent from the lexer.hpp revision
in the dump; the parser requires QUESTION_MARK to satisfy `isBinaryOp` (ternary
parsing) and COLON to be a plain punctuator, so they are placed accordingly. -/
def Symbol.code : Symbol → Int
  | .MINUS => 0
  | .PLUS => 1
  | .TILDE => 100
  | .EXCLAMATION_MARK => 101
  | .DOUBLE_MINUS => 102
  | .DOUBLE_PLUS => 103
  | .ASTERISK => 200
  | .FORWARD_SLASH => 201
  | .PERCENTAGE => 202
  | .CARET => 203
  | .AMPERSAND => 204
  | .PIPE => 205
  | .DOUBLE_LESS_THAN => 206
  | .DOUBLE_GREATER_THAN => 207
  | .DOUBLE_AMPERSAND => 208
  | .DOUBLE_PIPE => 209
  | .DOUBLE_EQUALS => 210
  | .NOT_EQUALS => 211
  | .LESS_THAN_OR_EQUAL => 212
  | .GREATER_THAN_OR_EQUAL => 213
  | .LESS_THAN => 214
  | .GREATER_THAN => 215
  | .EQUALS => 216
  | .QUESTION_MARK => 217
  | .OPEN_BRACE => 300
  | .CLOSED_BRACE => 301
  | .OPEN_PAREN => 302
  | .CLOSED_PAREN => 303
  | .SEMICOLON => 304
  | .COLON => 305

/-- `isUnaryOp` (lexer.hpp): code < _UNARY_BEGIN, or strictly between
_UNARY_BEGIN and _BINARY_BEGIN. -/
def isUnaryOp (s : Symbol) : Bool :=
  s.code < 99 || (99 < s.code && s.code < 199)

/-- `isBinaryOp` (lexer.hpp): code < _UNARY_BEGIN, or strictly between
_BINARY_BEGIN and _MISC_BEGIN. -/
def isBinaryOp (s : Symbol) : Bool :=
  s.code < 99 || (199 < s.code && s.code < 299)

/-- Tokens (lexer.hpp): a variant of symbol, keyword, number, identifier, unknown. -/
inductive Token
  | symbol (s : Symbol)
  | keyword (k : Keyword)
  | number (n : Nat)
  | ident (name : String)
  | unknown
  deriving DecidableEq, Repr

/-- `enum class UnaryOperator` (src/cpp/compiler/tac.hpp); numeric values shared
with Symbol so that `static_cast<UnaryOperator>(symbol)` is the identity on codes. -/
inductive UnaryOperator
  | NEGATION
  | UNARY_ADD
  | BITWISE_NOT
  | LOGICAL_NOT
  deriving DecidableEq, Repr

/-- `enum class BinaryOperator` (src/cpp/compiler/tac.hpp). -/
inductive BinaryOperator
  | SUBTRACT
  | ADD
  | MULTIPLY
  | DIVIDE
  | MODULO
  | BITWISE_XOR
  | BITWISE_AND
  | BITWISE_OR
  | SHIFT_LEFT
  | SHIFT_RIGHT
  | LOGICAL_AND
  | LOGICAL_OR
  | EQUALS
  | NOT_EQUALS
  | LESS_THAN_OR_EQUAL
  | GREATER_THAN_OR_EQUAL
  | LESS_THAN
  | GREATER_THAN
  deriving DecidableEq, Repr

/-- `static_cast<UnaryOperator>(symbol)`: the enums share numeric codes, so this
is the code-preserving map.  Only symbols with `isUnaryOp` (and not the increment
and decrement pair, which the parser intercepts first) reach this cast; the
default is unreachable. -/
def symToUnaryOperator : Symbol → UnaryOperator
  | .MINUS => .NEGATION
  | .PLUS => .UNARY_ADD
  | .TILDE => .BITWISE_NOT
  | .EXCLAMATION_MARK => .LOGICAL_NOT
  | _ => .NEGATION

/-- `static_cast<BinaryOperator>(symbol)`: code-preserving map between the enums.
Only symbols with `isBinaryOp` (and not EQUALS / QUESTION_MARK, which the parser
intercepts) reach this cast; the default is unreachable. -/
def symToBinaryOperator : Symbol → BinaryOperator
  | .MINUS => .SUBTRACT
  | .PLUS => .ADD
  | .ASTERISK => .MULTIPLY
  | .FORWARD_SLASH => .DIVIDE
  | .PERCENTAGE => .MODULO
  | .CARET => .BITWISE_XOR
  | .AMPERSAND => .BITWISE_AND
  | .PIPE => .BITWISE_OR
  | .DOUBLE_LESS_THAN => .SHIFT_LEFT
  | .DOUBLE_GREATER_THAN => .SHIFT_RIGHT
  | .DOUBLE_AMPERSAND => .LOGICAL_AND
  | .DOUBLE_PIPE => .LOGICAL_OR
  | .DOUBLE_EQUALS => .EQUALS
  | .NOT_EQUALS => .NOT_EQUALS
  | .LESS_THAN_OR_EQUAL => .LESS_THAN_OR_EQUAL
  | .GREATER_THAN_OR_EQUAL => .GREATER_THAN_OR_EQUAL
  | .LESS_THAN => .LESS_THAN
  | .GREATER_THAN => .GREATER_THAN
  | _ => .ADD

/-- `getPrecedence` (src/unnamed/part_026, lines 385-422); -1 for non-operators. -/
def getPrecedence : Symbol → Int
  | .ASTERISK => 50
  | .FORWARD_SLASH => 50
  | .PERCENTAGE => 50
  | .PLUS => 45
  | .MINUS => 45
  | .DOUBLE_GREATER_THAN => 40
  | .DOUBLE_LESS_THAN => 40
  | .LESS_THAN => 35
  | .LESS_THAN_OR_EQUAL => 35
  | .GREATER_THAN => 35
  | .GREATER_THAN_OR_EQUAL => 35
  | .DOUBLE_EQUALS => 30
  | .NOT_EQUALS => 30
  | .AMPERSAND => 25
  | .CARET => 20
  | .PIPE => 15
  | .DOUBLE_AMPERSAND => 10
  | .DOUBLE_PIPE => 5
  | .QUESTION_MARK => 3
  | .EQUALS => 1
  | _ => -1

/-! ## Lexer (src/unnamed/part_039, `Lexer::lex`) -/

/-- `std::isalpha(c) || c == '_'` for the identifier start test. -/
def isAlphaUnd (c : Char) : Bool := c.isAlpha || c == '_'

/-- `std::isalnum(c) || c == '_'` for the identifier continuation test. -/
def isAlnumUnd (c : Char) : Bool := c.isAlphanum || c == '_'

/-- The keyword table.  src/unnamed/part_039 compares the identifier against
"return" and "int"; the comparisons for the loop/branch keywords belong to the
head-revision lexer that matches the part_026 parser (not in the dump) and follow
the keyword list of spec section 6.2. -/
def keywordOf (id : String) : Option Keyword :=
  if id == "return" then some .RETURN
  else if id == "int" then some .INT
  else if id == "if" then some .IF
  else if id == "else" then some .ELSE
  else if id == "while" then some .WHILE
  else if id == "do" then some .DO
  else if id == "for" then some .FOR
  else if id == "break" then some .BREAK
  else if id == "continue" then some .CONTINUE
  else none

/-- The open-brace character (written by code point to keep braces out of literals). -/
def lbraceChar : Char := Char.ofNat 123

/-- The close-brace character. -/
def rbraceChar : Char := Char.ofNat 125

/-- One token of maximal-munch lexing plus recursion on the rest: the loop body of
`Lexer::lex` (src/unnamed/part_039).  The fuel argument only bounds the recursion;
each step consumes at least one character, so fuel = length + 1 never runs out. -/
def lexChars : Nat → List Char → List Token
  | 0, _ => []
  | _, [] => []
  | fuel + 1, c :: cs =>
    if c == lbraceChar then .symbol .OPEN_BRACE :: lexChars fuel cs
    else if c == rbraceChar then .symbol .CLOSED_BRACE :: lexChars fuel cs
    else if c == '(' then .symbol .OPEN_PAREN :: lexChars fuel cs
    else if c == ')' then .symbol .CLOSED_PAREN :: lexChars fuel cs
    else if c == ';' then .symbol .SEMICOLON :: lexChars fuel cs
    else if c == '-' then
      match cs with
      | '-' :: cs2 => .symbol .DOUBLE_MINUS :: lexChars fuel cs2
      | _ => .symbol .MINUS :: lexChars fuel cs
    else if c == '~' then .symbol .TILDE :: lexChars fuel cs
    else if c == '!' then
      match cs with
      | '=' :: cs2 => .symbol .NOT_EQUALS :: lexChars fuel cs2
      | _ => .symbol .EXCLAMATION_MARK :: lexChars fuel cs
    else if c == '+' then
      match cs with
      | '+' :: cs2 => .symbol .DOUBLE_PLUS :: lexChars fuel cs2
      | _ => .symbol .PLUS :: lexChars fuel cs
    else if c == '*' then .symbol .ASTERISK :: lexChars fuel cs
    else if c == '/' then .symbol .FORWARD_SLASH :: lexChars fuel cs
    else if c == '%' then .symbol .PERCENTAGE :: lexChars fuel cs
    else if c == '|' then
      match cs with
      | '|' :: cs2 => .symbol .DOUBLE_PIPE :: lexChars fuel cs2
      | _ => .symbol .PIPE :: lexChars fuel cs
    else if c == '&' then
      match cs with
      | '&' :: cs2 => .symbol .DOUBLE_AMPERSAND :: lexChars fuel cs2
      | _ => .symbol .AMPERSAND :: lexChars fuel cs
    else if c == '^' then .symbol .CARET :: lexChars fuel cs
    else if c == '<' then
      match cs with
      | '<' :: cs2 => .symbol .DOUBLE_LESS_THAN :: lexChars fuel cs2
      | '=' :: cs2 => .symbol .LESS_THAN_OR_EQUAL :: lexChars fuel cs2
      | _ => .symbol .LESS_THAN :: lexChars fuel cs
    else if c == '>' then
      match cs with
      | '>' :: cs2 => .symbol .DOUBLE_GREATER_THAN :: lexChars fuel cs2
      | '=' :: cs2 => .symbol .GREATER_THAN_OR_EQUAL :: lexChars fuel cs2
      | _ => .symbol .GREATER_THAN :: lexChars fuel cs
    else if c == '=' then
      match cs with
      | '=' :: cs2 => .symbol .DOUBLE_EQUALS :: lexChars fuel cs2
      | _ => .symbol .EQUALS :: lexChars fuel cs
    else if c == ' ' || c == '\n' || c == '\r' || c == '\t' then lexChars fuel cs
    else if isAlphaUnd c then
      let run := (c :: cs).takeWhile isAlnumUnd
      let rest := (c :: cs).dropWhile isAlnumUnd
      let id := String.mk run
      (match keywordOf id with
       | some k => Token.keyword k
       | none => Token.ident id) :: lexChars fuel rest
    else if c.isDigit then
      let run := (c :: cs).takeWhile Char.isDigit
      let rest := (c :: cs).dropWhile Char.isDigit
      Token.number (run.foldl (fun acc d => (acc * 10 + (d.toNat - 48)) % M32) 0) ::
        lexChars fuel rest
    else Token.unknown :: lexChars fuel cs

/-- `Lexer::lex`: the whole token stream of a source string. -/
def lex (source : String) : List Token :=
  lexChars (source.length + 1) source.data

/-! ## AST (src/compiler/ast.hpp, src/compiler/ast_nodes.hpp) -/

/-- The AST node variants of ast_nodes.hpp.  Child pointers that may be null in
the C++ are Option; `condition` covers both ConditionNode uses (if and ternary,
distinguished by `isTernary`), `whileNode` covers while and do-while
(distinguished by `isDoWhile`).  Labels of loops, break and continue are the
string fields the parser and resolver fill in. -/
inductive AST
  | program (fn : AST)
  | functionDefinition (ident : String) (body : AST)
  | block (items : List AST)
  | declaration (ident : String) (expr : Option AST)
  | returnStmt (expr : Option AST)
  | unary (op : UnaryOperator) (expr : AST)
  | binary (op : BinaryOperator) (left right : AST)
  | constNode (value : Nat)
  | var (ident : String)
  | prefixNode (v : AST) (op : BinaryOperator)
  | postfixNode (v : AST) (op : BinaryOperator)
  | assignment (left right : AST)
  | condition (cond : AST) (ifTrue : Option AST) (ifFalse : Option AST) (isTernary : Bool)
  | whileNode (cond : AST) (body : Option AST) (label : String) (isDoWhile : Bool)
  | breakNode (label : String)
  | continueNode (label : String) (isFor : Bool)
  | forNode (init : Option AST) (cond : Option AST) (inc : Option AST) (body : Option AST)
      (label : String)
  deriving Repr

/-- A short tag for each binary operator (used by the AST encoding). -/
def BinaryOperator.enc : BinaryOperator → String
  | .SUBTRACT => "sub"
  | .ADD => "add"
  | .MULTIPLY => "mul"
  | .DIVIDE => "div"
  | .MODULO => "mod"
  | .BITWISE_XOR => "bxor"
  | .BITWISE_AND => "band"
  | .BITWISE_OR => "bor"
  | .SHIFT_LEFT => "shl"
  | .SHIFT_RIGHT => "shr"
  | .LOGICAL_AND => "land"
  | .LOGICAL_OR => "lor"
  | .EQUALS => "eq"
  | .NOT_EQUALS => "neq"
  | .LESS_THAN_OR_EQUAL => "leq"
  | .GREATER_THAN_OR_EQUAL => "geq"
  | .LESS_THAN => "lt"
  | .GREATER_THAN => "gt"

/-- A short tag for each unary operator (used by the AST encoding). -/
def UnaryOperator.enc : UnaryOperator → String
  | .NEGATION => "neg"
  | .UNARY_ADD => "uadd"
  | .BITWISE_NOT => "bnot"
  | .LOGICAL_NOT => "lnot"

mutual

/-- An injective string encoding of ASTs, used to decide inequalities of parse
results (structural equality on AST is not needed elsewhere). -/
def encode : AST → String
  | .program f => "P(" ++ encode f ++ ")"
  | .functionDefinition id b => "F(" ++ id ++ "," ++ encode b ++ ")"
  | .block items => "B(" ++ encodeList items ++ ")"
  | .declaration id e => "D(" ++ id ++ "," ++ encodeOpt e ++ ")"
  | .returnStmt e => "R(" ++ encodeOpt e ++ ")"
  | .unary op e => "U(" ++ op.enc ++ "," ++ encode e ++ ")"
  | .binary op l r => "O(" ++ op.enc ++ "," ++ encode l ++ "," ++ encode r ++ ")"
  | .constNode n => "K(" ++ toString n ++ ")"
  | .var id => "V(" ++ id ++ ")"
  | .prefixNode v op => "E(" ++ encode v ++ "," ++ op.enc ++ ")"
  | .postfixNode v op => "T(" ++ encode v ++ "," ++ op.enc ++ ")"
  | .assignment l r => "A(" ++ encode l ++ "," ++ encode r ++ ")"
  | .condition c t e b =>
    "C(" ++ encode c ++ "," ++ encodeOpt t ++ "," ++ encodeOpt e ++ "," ++ toString b ++ ")"
  | .whileNode c b lab d =>
    "W(" ++ encode c ++ "," ++ encodeOpt b ++ "," ++ lab ++ "," ++ toString d ++ ")"
  | .breakNode lab => "X(" ++ lab ++ ")"
  | .continueNode lab f => "Y(" ++ lab ++ "," ++ toString f ++ ")"
  | .forNode i c n b lab =>
    "G(" ++ encodeOpt i ++ "," ++ encodeOpt c ++ "," ++ encodeOpt n ++ "," ++ encodeOpt b ++
      "," ++ lab ++ ")"

/-- String encoding of an optional AST child. -/
def encodeOpt : Option AST → String
  | none => "-"
  | some a => encode a

/-- String encoding of an AST list. -/
def encodeList : List AST → String
  | [] => "n"
  | a :: as => "c(" ++ encode a ++ "," ++ encodeList as ++ ")"

end

/-- `dynamic_cast<LvalueNode*>` as a predicate: only VariableNode and PrefixNode
derive from LvalueNode (ast_nodes.hpp). -/
def isLvalue : AST → Bool
  | .var _ => true
  | .prefixNode _ _ => true
  | _ => false

/-- A well-typed lvalue tree: in the C++, `PrefixNode::variable` is statically an
LvalueNode, so lvalues are prefix chains over a variable.  The parser only builds
such trees. -/
def isLvalueTree : AST → Bool
  | .var _ => true
  | .prefixNode v _ => isLvalueTree v
  | _ => false

/-- `LvalueNode::clone` (ast_nodes.hpp): a structural deep copy, defined only on
lvalues (VariableNode and PrefixNode); none models the absence of a clone method
on the remaining node classes. -/
def clone : AST → Option AST
  | .var id => some (.var id)
  | .prefixNode v op => (clone v).map (fun c => .prefixNode c op)
  | _ => none

/-- The compile-error kinds of exceptions.hpp (syntax_error, semantic_error) plus
std::logic_error and the unreachable-by-construction fuel exhaustion of this
embedding (every concrete run below is given ample fuel). -/
inductive CErr
  | synErr (msg : String)
  | semErr (msg : String)
  | logicErr (msg : String)
  | fuelErr
  deriving DecidableEq, Repr

/-- Whether an error is a compile error (a `compiler_error` subclass in the C++,
caught by the CLI), as opposed to a `std::logic_error`. -/
def CErr.isCompileError : CErr → Bool
  | .synErr _ => true
  | .semErr _ => true
  | _ => false

/-! ## Parser (src/unnamed/part_026, class Parser::Impl)

Parser state: the token deque plus the `loopLabelCount` member.  In the C++ that
member is declared `int loopLabelCount;` and never initialized by the
constructor, so its starting value is indeterminate; it is therefore an explicit
parameter of the embedded parser.  The `lineNumber` position only feeds
diagnostic strings and is elided. -/

structure PSt where
  toks : List Token
  loopLabelCount : Int
  deriving DecidableEq, Repr

/-- `Parser::Impl::peekToken`. -/
def peekToken (st : PSt) : Except CErr Token :=
  match st.toks with
  | [] => .error (.synErr "Unexpected EOF")
  | t :: _ => .ok t

/-- Popping the front token (the effect of `getTokenAndAdvance`). -/
def advanceTok (st : PSt) : PSt := { st with toks := st.toks.tail }

/-- `getTokenAndAdvance(Symbol expected)`: EOF and mismatches are syntax errors. -/
def expectSymbol (s : Symbol) (st : PSt) : Except CErr PSt :=
  match st.toks with
  | [] => .error (.synErr "Unexpected EOF")
  | .symbol t :: rest =>
    if t = s then .ok { st with toks := rest }
    else .error (.synErr "Expected other symbol")
  | _ :: _ => .error (.synErr "Expected symbol")

/-- `getTokenAndAdvance(Keyword expected)`. -/
def expectKeyword (k : Keyword) (st : PSt) : Except CErr PSt :=
  match st.toks with
  | [] => .error (.synErr "Unexpected EOF")
  | .keyword t :: rest =>
    if t = k then .ok { st with toks := rest }
    else .error (.synErr "Expected other keyword")
  | _ :: _ => .error (.synErr "Expected keyword")

/-- `getTokenAndAdvance<std::string>()`: take an identifier token. -/
def getIdent (st : PSt) : Except CErr (String × PSt) :=
  match st.toks with
  | [] => .error (.synErr "Unexpected EOF")
  | .ident s :: rest => .ok (s, { st with toks := rest })
  | _ :: _ => .error (.synErr "Unexpected token")

/-- `Parser::Impl::endLine`: consume the semicolon (the line counter it also
bumps only feeds diagnostics). -/
def endLine (st : PSt) : Except CErr PSt := expectSymbol .SEMICOLON st

/-- `Parser::Impl::parseIncrementDecrement`: build a PrefixNode when the operand
is an lvalue, otherwise a semantic error. -/
def parseIncrementDecrement (e : AST) (s : Symbol) : Except CErr AST :=
  if isLvalue e then
    .ok (.prefixNode e (if s = .DOUBLE_PLUS then .ADD else .SUBTRACT))
  else .error (.semErr "Expected lvalue")

mutual

/-- `Parser::Impl::parsePrimary`: number, parenthesized expression, or variable. -/
def parsePrimary : Nat → PSt → Except CErr (AST × PSt)
  | 0, _ => .error .fuelErr
  | fuel + 1, st => do
    let t ← peekToken st
    match t with
    | .number n => .ok (.constNode n, advanceTok st)
    | .symbol _ => do
      let st1 ← expectSymbol .OPEN_PAREN st
      let (e, st2) ← parseExpression fuel st1
      let st3 ← expectSymbol .CLOSED_PAREN st2
      .ok (e, st3)
    | .ident s => .ok (.var s, advanceTok st)
    | _ => .error (.synErr "Unexpected token")

/-- `Parser::Impl::parseUnaryOrPrimary`, first half: prefix increment/decrement
and unary operators; otherwise fall through to the primary-and-postfix tail. -/
def parseUnaryOrPrimary : Nat → PSt → Except CErr (AST × PSt)
  | 0, _ => .error .fuelErr
  | fuel + 1, st => do
    let t ← peekToken st
    match t with
    | .symbol s =>
      if s = .DOUBLE_PLUS || s = .DOUBLE_MINUS then do
        let (e, st1) ← parsePrimary fuel (advanceTok st)
        let pre ← parseIncrementDecrement e s
        .ok (pre, st1)
      else if isUnaryOp s then do
        let (e, st1) ← parseUnaryOrPrimary fuel (advanceTok st)
        .ok (.unary (symToUnaryOperator s) e, st1)
      else parsePostfixTail fuel st
    | _ => parsePostfixTail fuel st

/-- `Parser::Impl::parseUnaryOrPrimary`, second half (after the prefix cases):
parse a primary and try a postfix increment/decrement on it. -/
def parsePostfixTail : Nat → PSt → Except CErr (AST × PSt)
  | 0, _ => .error .fuelErr
  | fuel + 1, st => do
    let (primary, st1) ← parsePrimary fuel st
    let t ← peekToken st1
    if t = .symbol .DOUBLE_PLUS || t = .symbol .DOUBLE_MINUS then
      if isLvalue primary then
        .ok (.postfixNode primary
              (if t = .symbol .DOUBLE_PLUS then .ADD else .SUBTRACT), advanceTok st1)
      else .error (.semErr "Expected lvalue")
    else .ok (primary, st1)

/-- `Parser::Impl::parseBinaryOp`: the head factor, then the precedence-climbing
loop. -/
def parseBinaryOp : Nat → Int → PSt → Except CErr (AST × PSt)
  | 0, _, _ => .error .fuelErr
  | fuel + 1, minPrec, st => do
    let (left, st1) ← parseUnaryOrPrimary fuel st
    parseBinLoop fuel minPrec left st1

/-- The while-loop of `Parser::Impl::parseBinaryOp`.  A non-Symbol lookahead
raises bad_variant_access, which the surrounding catch turns into a syntax
error; an exhausted stream raises the EOF syntax error from peekToken. -/
def parseBinLoop : Nat → Int → AST → PSt → Except CErr (AST × PSt)
  | 0, _, _, _ => .error .fuelErr
  | fuel + 1, minPrec, left, st =>
    match st.toks with
    | [] => .error (.synErr "Unexpected EOF")
    | .symbol tok :: rest =>
      if isBinaryOp tok && decide (getPrecedence tok ≥ minPrec) then
        let st1 : PSt := { st with toks := rest }
        if tok = .EQUALS then
          if isLvalue left then do
            let (right, st2) ← parseBinaryOp fuel (getPrecedence .EQUALS) st1
            parseBinLoop fuel minPrec (.assignment left right) st2
          else .error (.semErr "Expected lvalue")
        else
          match st1.toks with
          | [] => .error (.synErr "Unexpected EOF")
          | t2 :: _ =>
            if t2 = .symbol .EQUALS then
              if isLvalue left then
                match clone left with
                | some leftCopy => do
                  let (right, st3) ← parseBinaryOp fuel (getPrecedence .EQUALS) (advanceTok st1)
                  parseBinLoop fuel minPrec
                    (.assignment leftCopy (.binary (symToBinaryOperator tok) left right)) st3
                | none => .error (.logicErr "clone unavailable")
              else .error (.semErr "Expected lvalue")
            else if tok = .QUESTION_MARK then do
              let (middle, st2) ← parseCondition fuel st1
              let (right, st3) ← parseBinaryOp fuel (getPrecedence .QUESTION_MARK) st2
              parseBinLoop fuel minPrec (.condition left (some middle) (some right) true) st3
            else do
              let (right, st2) ← parseBinaryOp fuel (getPrecedence tok + 1) st1
              parseBinLoop fuel minPrec (.binary (symToBinaryOperator tok) left right) st2
      else .ok (left, st)
    | _ :: _ => .error (.synErr "Unexpected token")

/-- `Parser::Impl::parseCondition`: the middle term of a ternary, up to the colon. -/
def parseCondition : Nat → PSt → Except CErr (AST × PSt)
  | 0, _ => .error .fuelErr
  | fuel + 1, st => do
    let (middle, st1) ← parseBinaryOp fuel 0 st
    let st2 ← expectSymbol .COLON st1
    .ok (middle, st2)

/-- `Parser::Impl::parseExpression`. -/
def parseExpression : Nat → PSt → Except CErr (AST × PSt)
  | 0, _ => .error .fuelErr
  | fuel + 1, st => parseBinaryOp fuel 0 st

/-- `Parser::Impl::parseDeclaration` (after the `int` keyword was consumed). -/
def parseDeclaration : Nat → PSt → Except CErr (AST × PSt)
  | 0, _ => .error .fuelErr
  | fuel + 1, st => do
    let (id, st1) ← getIdent st
    match st1.toks with
    | [] => .error (.synErr "Unexpected EOF")
    | t :: _ =>
      if t = .symbol .EQUALS then do
        let st2 ← expectSymbol .EQUALS st1
        let (e, st3) ← parseExpression fuel st2
        .ok (.declaration id (some e), st3)
      else .ok (.declaration id none, st1)

/-- `Parser::Impl::parseBlockItem`: a declaration introduced by `int`, otherwise
a statement.  The result is none when the statement was an empty `;`. -/
def parseBlockItem : Nat → PSt → Except CErr (Option AST × PSt)
  | 0, _ => .error .fuelErr
  | fuel + 1, st => do
    let t ← peekToken st
    match t with
    | .keyword .INT => do
      let (d, st1) ← parseDeclaration fuel (advanceTok st)
      let st2 ← endLine st1
      .ok (some d, st2)
    | _ => parseStatement fuel st

/-- `Parser::Impl::parseStatement` (src/unnamed/part_026, lines 290-383). -/
def parseStatement : Nat → PSt → Except CErr (Option AST × PSt)
  | 0, _ => .error .fuelErr
  | fuel + 1, st => do
    let t ← peekToken st
    match t with
    | .keyword k =>
      let st0 := advanceTok st
      match k with
      | .RETURN => do
        let (e, st1) ← parseExpression fuel st0
        let st2 ← endLine st1
        .ok (some (.returnStmt (some e)), st2)
      | .IF => do
        let st1 ← expectSymbol .OPEN_PAREN st0
        let (e, st2) ← parseExpression fuel st1
        let st3 ← expectSymbol .CLOSED_PAREN st2
        let (body, st4) ← parseStatement fuel st3
        match st4.toks with
        | [] => .error (.synErr "Unexpected EOF")
        | t2 :: _ =>
          if t2 = .keyword .ELSE then do
            let (elseBody, st5) ← parseStatement fuel (advanceTok st4)
            .ok (some (.condition e body elseBody false), st5)
          else .ok (some (.condition e body none false), st4)
      | .ELSE => .error (.synErr "Unexpected else")
      | .WHILE => do
        let st1 ← expectSymbol .OPEN_PAREN st0
        let (e, st2) ← parseExpression fuel st1
        let st3 ← expectSymbol .CLOSED_PAREN st2
        let (body, st4) ← parseStatement fuel st3
        .ok (some (.whileNode e body (toString st4.loopLabelCount) false),
             { st4 with loopLabelCount := st4.loopLabelCount + 1 })
      | .BREAK => do
        let st1 ← endLine st0
        .ok (some (.breakNode ""), st1)
      | .CONTINUE => do
        let st1 ← endLine st0
        .ok (some (.continueNode "" false), st1)
      | .DO => do
        let (body, st1) ← parseStatement fuel st0
        let st2 ← expectKeyword .WHILE st1
        let st3 ← expectSymbol .OPEN_PAREN st2
        let (e, st4) ← parseExpression fuel st3
        let st5 ← expectSymbol .CLOSED_PAREN st4
        let st6 ← endLine st5
        .ok (some (.whileNode e body (toString st6.loopLabelCount) true),
             { st6 with loopLabelCount := st6.loopLabelCount + 1 })
      | .FOR => do
        let st1 ← expectSymbol .OPEN_PAREN st0
        let (initStmt, st2) ← parseBlockItem fuel st1
        let (cond, st3) ← parseStatement fuel st2
        match st3.toks with
        | [] => .error (.synErr "Unexpected EOF")
        | t2 :: _ => do
          let (inc, st4) ←
            if t2 = .symbol .CLOSED_PAREN then pure ((none : Option AST), st3)
            else do
              let (e, st4x) ← parseExpression fuel st3
              pure (some e, st4x)
          let st5 ← expectSymbol .CLOSED_PAREN st4
          let (body, st6) ← parseStatement fuel st5
          .ok (some (.forNode initStmt cond inc body (toString st6.loopLabelCount)),
               { st6 with loopLabelCount := st6.loopLabelCount + 1 })
      | .INT => .error (.synErr "Unexpected keyword")
    | .symbol .OPEN_BRACE => do
      let (items, st1) ← parseBlockItems fuel (advanceTok st) []
      let st2 ← expectSymbol .CLOSED_BRACE st1
      .ok (some (.block items), st2)
    | .symbol .SEMICOLON => do
      let st1 ← endLine st
      .ok (none, st1)
    | _ => do
      let (e, st1) ← parseExpression fuel st
      let st2 ← endLine st1
      .ok (some e, st2)

/-- The block-item collection loop shared by `parseFunctionDeclaration` and the
block case of `parseStatement`: parse items until the closing brace, keeping the
non-null ones. -/
def parseBlockItems : Nat → PSt → List AST → Except CErr (List AST × PSt)
  | 0, _, _ => .error .fuelErr
  | fuel + 1, st, acc => do
    let t ← peekToken st
    if t = .symbol .CLOSED_BRACE then .ok (acc.reverse, st)
    else do
      let (item, st1) ← parseBlockItem fuel st
      parseBlockItems fuel st1 (match item with | some i => i :: acc | none => acc)

/-- `Parser::Impl::parseFunctionDeclaration`: `int name() { items }` and then the
stream must be exhausted. -/
def parseFunctionDeclaration : Nat → PSt → Except CErr (AST × PSt)
  | 0, _ => .error .fuelErr
  | fuel + 1, st => do
    let st1 ← expectKeyword .INT st
    let (name, st2) ← getIdent st1
    let st3 ← expectSymbol .OPEN_PAREN st2
    let st4 ← expectSymbol .CLOSED_PAREN st3
    let st5 ← expectSymbol .OPEN_BRACE st4
    let (items, st6) ← parseBlockItems fuel st5 []
    let st7 ← expectSymbol .CLOSED_BRACE st6
    if st7.toks.isEmpty then .ok (.functionDefinition name (.block items), st7)
    else .error (.synErr "Unexpected token after function")

end

/-- `Parser::Impl::parseProgram`. -/
def parseProgram (fuel : Nat) (st : PSt) : Except CErr (AST × PSt) := do
  let (fn, st1) ← parseFunctionDeclaration fuel st
  .ok (.program fn, st1)

/-- `Parser::parse` on a token list.  `loopLabelCount0` is the indeterminate
initial value of the uninitialized `loopLabelCount` member of `Parser::Impl`.
The fuel is ample: every recursive call either consumes a token or descends a
strictly smaller structure bounded by the grammar depth per token. -/
def parserParse (tokens : List Token) (loopLabelCount0 : Int) : Except CErr AST := do
  let (p, _) ← parseProgram (16 * tokens.length + 64)
    { toks := tokens, loopLabelCount := loopLabelCount0 }
  .ok p

/-! ## Variable resolution (src/cpp/compiler/variable_resolution.cpp) -/

/-- A binding on a name stack: `struct Variable` of variable_resolution.hpp. -/
structure RVar where
  function : String
  name : String
  layer : Nat
  deriving DecidableEq, Repr

/-- Resolver state: the name-to-binding-stack map, the lexical layer, the
function name, and the loop-label stack (label, isFor). -/
structure RSt where
  varMap : List (String × List RVar)
  layer : Nat
  func : String
  loopLabels : List (String × Bool)
  deriving Repr

/-- Lookup in the binding map (`variableMap.contains` / `operator[]`). -/
def mapFind (m : List (String × List RVar)) (k : String) : Option (List RVar) :=
  (m.find? (fun p => p.1 == k)).map (fun p => p.2)

/-- Update or insert a binding stack. -/
def mapSet (m : List (String × List RVar)) (k : String) (v : List RVar) :
    List (String × List RVar) :=
  match m with
  | [] => [(k, v)]
  | (k2, v2) :: rest => if k2 == k then (k, v) :: rest else (k2, v2) :: mapSet rest k v

/-- The scope-exit sweep of `visitBlock` / `visitFor`: pop, from every stack,
the top binding when it belongs to the given layer. -/
def popLayerBindings (m : List (String × List RVar)) (layer : Nat) :
    List (String × List RVar) :=
  m.map (fun p =>
    match p.2 with
    | v :: rest => if v.layer == layer then (p.1, rest) else (p.1, v :: rest)
    | [] => (p.1, []))

/-- The scope-unique renaming `function::name::layer` used by the resolver. -/
def mangle (f n : String) (l : Nat) : String :=
  f ++ "::" ++ n ++ "::" ++ toString l

mutual

/-- `VariableResolutionVisitor`: rewrite a node, renaming declarations and uses
and filling break/continue labels, threading the resolver state. -/
def resolveNode : Nat → AST → RSt → Except CErr (AST × RSt)
  | 0, _, _ => .error .fuelErr
  | fuel + 1, a, st =>
    match a with
    | .program _ => .error (.logicErr "ProgramNode visited by resolver")
    | .functionDefinition id body => do
      let (body2, st1) ← resolveNode fuel body st
      .ok (.functionDefinition id body2, st1)
    | .declaration id e => do
      let st1 ←
        match mapFind st.varMap id with
        | none =>
          .ok { st with varMap := mapSet st.varMap id [⟨st.func, id, st.layer⟩] }
        | some stk =>
          match stk with
          | v :: _ =>
            if v.layer == st.layer then .error (.semErr "Duplicate variable declaration")
            else .ok { st with varMap := mapSet st.varMap id (⟨st.func, id, st.layer⟩ :: stk) }
          | [] => .ok { st with varMap := mapSet st.varMap id [⟨st.func, id, st.layer⟩] }
      let newId := mangle st.func id st.layer
      match e with
      | none => .ok (.declaration newId none, st1)
      | some ex => do
        let (ex2, st2) ← resolveNode fuel ex st1
        .ok (.declaration newId (some ex2), st2)
    | .returnStmt e => do
      let (e2, st1) ← resolveOpt fuel e st
      .ok (.returnStmt e2, st1)
    | .unary op ex => do
      let (ex2, st1) ← resolveNode fuel ex st
      .ok (.unary op ex2, st1)
    | .binary op l r => do
      let (l2, st1) ← resolveNode fuel l st
      let (r2, st2) ← resolveNode fuel r st1
      .ok (.binary op l2 r2, st2)
    | .constNode n => .ok (.constNode n, st)
    | .var id =>
      match mapFind st.varMap id with
      | none => .error (.semErr "Undeclared variable")
      | some [] => .error (.semErr "Variable out of scope")
      | some (v :: _) => .ok (.var (mangle v.function v.name v.layer), st)
    | .assignment l r => do
      let (l2, st1) ← resolveNode fuel l st
      let (r2, st2) ← resolveNode fuel r st1
      .ok (.assignment l2 r2, st2)
    | .postfixNode v op => do
      let (v2, st1) ← resolveNode fuel v st
      .ok (.postfixNode v2 op, st1)
    | .prefixNode v op => do
      let (v2, st1) ← resolveNode fuel v st
      .ok (.prefixNode v2 op, st1)
    | .condition c tB eB isTernary => do
      let (c2, st1) ← resolveNode fuel c st
      match tB with
      | none => .error (.logicErr "null ifTrue dereference")
      | some tb => do
        let (tb2, st2) ← resolveNode fuel tb st1
        let (eB2, st3) ← resolveOpt fuel eB st2
        .ok (.condition c2 (some tb2) eB2 isTernary, st3)
    | .block items => do
      let st1 := { st with layer := st.layer + 1 }
      let (items2, st2) ← resolveList fuel items st1
      let st3 := { st2 with varMap := popLayerBindings st2.varMap st2.layer,
                            layer := st2.layer - 1 }
      .ok (.block items2, st3)
    | .whileNode c b lab d => do
      let st1 := { st with loopLabels := (lab, false) :: st.loopLabels }
      let (c2, st2) ← resolveNode fuel c st1
      let (b2, st3) ← resolveOpt fuel b st2
      let st4 := { st3 with loopLabels := st3.loopLabels.tail }
      .ok (.whileNode c2 b2 lab d, st4)
    | .breakNode _ =>
      match st.loopLabels with
      | [] => .error (.semErr "Break outside of loop")
      | (lab, _) :: _ => .ok (.breakNode lab, st)
    | .continueNode _ _ =>
      match st.loopLabels with
      | [] => .error (.semErr "Continue outside of loop")
      | (lab, f) :: _ => .ok (.continueNode lab f, st)
    | .forNode i c n b lab => do
      let st1 := if i.isSome then { st with layer := st.layer + 1 } else st
      let st2 := { st1 with loopLabels := (lab, true) :: st1.loopLabels }
      let (i2, st3) ← resolveOpt fuel i st2
      let (c2, st4) ← resolveOpt fuel c st3
      let (n2, st5) ← resolveOpt fuel n st4
      let (b2, st6) ← resolveOpt fuel b st5
      let st7 := { st6 with loopLabels := st6.loopLabels.tail }
      let st8 :=
        if i.isSome then
          { st7 with varMap := popLayerBindings st7.varMap st7.layer,
                     layer := st7.layer - 1 }
        else st7
      .ok (.forNode i2 c2 n2 b2 lab, st8)

/-- Resolution of an optional child (`if (node->child) child->accept(*this)`). -/
def resolveOpt : Nat → Option AST → RSt → Except CErr (Option AST × RSt)
  | 0, _, _ => .error .fuelErr
  | _ + 1, none, st => .ok (none, st)
  | fuel + 1, some a, st => do
    let (a2, st1) ← resolveNode fuel a st
    .ok (some a2, st1)

/-- Resolution of the item list of a block. -/
def resolveList : Nat → List AST → RSt → Except CErr (List AST × RSt)
  | 0, _, _ => .error .fuelErr
  | _ + 1, [], st => .ok ([], st)
  | fuel + 1, a :: rest, st => do
    let (a2, st1) ← resolveNode fuel a st
    let (rest2, st2) ← resolveList fuel rest st1
    .ok (a2 :: rest2, st2)

end

/-- `VariableResolutionVisitor resolver{identifier}; node->accept(resolver);`
in FunctionDefinitionNode::generate: resolve a function with a fresh state. -/
def resolveFunction (fuel : Nat) (fd : AST) (fname : String) : Except CErr AST := do
  let (fd2, _) ← resolveNode fuel fd { varMap := [], layer := 0, func := fname, loopLabels := [] }
  .ok fd2

/-! ## Three-address code (src/cpp/compiler/tac.hpp, tac_visitor.cpp) -/

/-- A pseudo-register: function name and slot position (type.hpp). -/
structure PseudoRegister where
  name : String
  position : Nat
  deriving DecidableEq, Repr

/-- An IR operand: pseudo-register or numeric literal.  (The C++ variant also
contains nullptr_t; within lowering only these two arise, and the null return
operand is modelled as Option at its use site.) -/
inductive Operand
  | reg (r : PseudoRegister)
  | num (n : Nat)
  deriving DecidableEq, Repr

/-- The TAC instruction variants of tac.hpp. -/
inductive TAC
  | functionIns (name : String)
  | allocateStack
  | labelIns (s : String)
  | jump (s : String)
  | jumpIfZero (o : Operand) (s : String)
  | jumpIfNotZero (o : Operand) (s : String)
  | storeValue (dest : PseudoRegister) (val : Operand)
  | unaryOp (dest : PseudoRegister) (op : UnaryOperator) (arg : Operand)
  | binaryOp (dest : PseudoRegister) (op : BinaryOperator) (left right : Operand)
  | returnIns (val : Option Operand)
  deriving DecidableEq, Repr

/-- `struct FunctionBody` (tac.hpp): name, monotone counters, instruction list,
and the resolved-name-to-pseudo-register map. -/
structure FBody where
  name : String
  variableCount : Nat
  labelCount : Nat
  instructions : List TAC
  varMap : List (String × PseudoRegister)
  deriving DecidableEq, Repr

/-- TacVisitor state: the function body under construction and the `result`
member (none models the null shared_ptr). -/
structure TSt where
  body : FBody
  result : Option Operand
  deriving DecidableEq, Repr

/-- Append one instruction (`emplaceInstruction`). -/
def emit (i : TAC) (t : TSt) : TSt :=
  { t with body := { t.body with instructions := t.body.instructions ++ [i] } }

/-- Lookup in `variableToPseudoregister`. -/
def fbFind (m : List (String × PseudoRegister)) (k : String) : Option PseudoRegister :=
  (m.find? (fun p => p.1 == k)).map (fun p => p.2)

/-- Update or insert in `variableToPseudoregister`. -/
def fbSet (m : List (String × PseudoRegister)) (k : String) (v : PseudoRegister) :
    List (String × PseudoRegister) :=
  match m with
  | [] => [(k, v)]
  | (k2, v2) :: rest => if k2 == k then (k, v) :: rest else (k2, v2) :: fbSet rest k v

/-- Dereference the `result` member; none is the null shared_ptr whose
dereference in the C++ is undefined behaviour (unreachable on parser output). -/
def getResult (t : TSt) : Except CErr Operand :=
  match t.result with
  | some o => .ok o
  | none => .error (.logicErr "null result dereference")

/-- Bump `variableCount`. -/
def bumpVC (t : TSt) : TSt :=
  { t with body := { t.body with variableCount := t.body.variableCount + 1 } }

mutual

/-- `TacVisitor` (src/cpp/compiler/tac_visitor.cpp): lower a resolved node into
the function body, threading the visitor state. -/
def tacNode : Nat → AST → TSt → Except CErr TSt
  | 0, _, _ => .error .fuelErr
  | fuel + 1, a, t =>
    match a with
    | .program _ => .error (.logicErr "ProgramNode visited by TacVisitor")
    | .functionDefinition _ body =>
      tacNode fuel body (emit .allocateStack (emit (.functionIns t.body.name) t))
    | .declaration id e => do
      let reg : PseudoRegister := ⟨t.body.name, t.body.variableCount⟩
      let t1 : TSt := { t with body := { t.body with varMap := fbSet t.body.varMap id reg } }
      let t2 ←
        match e with
        | none => pure t1
        | some ex => do
          let t2 ← tacNode fuel ex t1
          let r ← getResult t2
          pure (emit (.storeValue reg r) t2)
      .ok (bumpVC t2)
    | .assignment l r => do
      let t1 ← tacNode fuel r t
      let src ← getResult t1
      let t2 ← tacNode fuel l t1
      match t2.result with
      | some (.reg v) => .ok (emit (.storeValue v src) t2)
      | some (.num _) => .error (.semErr "Invalid lvalue")
      | none => .error (.logicErr "null result dereference")
    | .returnStmt e => do
      let t1 ←
        match e with
        | none => pure (emit (.returnIns none) t)
        | some ex => do
          let t1 ← tacNode fuel ex t
          pure (emit (.returnIns t1.result) t1)
      .ok { t1 with result := none }
    | .unary op e => do
      let t1 ← tacNode fuel e t
      if op = .UNARY_ADD then .ok t1
      else do
        let src ← getResult t1
        let dest : PseudoRegister := ⟨t1.body.name, t1.body.variableCount⟩
        .ok { bumpVC (emit (.unaryOp dest op src) t1) with result := some (.reg dest) }
    | .binary op l r =>
      if op = .LOGICAL_AND then do
        let name := t.body.name
        let falseLabel := "." ++ name ++ toString (t.body.labelCount + 1) ++ "_false"
        let endLabel := "." ++ name ++ toString (t.body.labelCount + 2) ++ "_end"
        let t0 : TSt := { t with body := { t.body with labelCount := t.body.labelCount + 2 } }
        let t1 ← tacNode fuel l t0
        let lop ← getResult t1
        let t2 := emit (.jumpIfZero lop falseLabel) t1
        let t3 ← tacNode fuel r t2
        let rop ← getResult t3
        let t4 := emit (.jumpIfZero rop falseLabel) t3
        let dest : PseudoRegister := ⟨t4.body.name, t4.body.variableCount⟩
        let t5 := emit (.jump endLabel) (emit (.storeValue dest (.num 1)) t4)
        let t6 := emit (.labelIns falseLabel) t5
        let t7 := emit (.storeValue dest (.num 0)) t6
        let t8 := emit (.labelIns endLabel) t7
        .ok { bumpVC t8 with result := some (.reg dest) }
      else if op = .LOGICAL_OR then do
        let name := t.body.name
        let trueLabel := "." ++ name ++ toString (t.body.labelCount + 1) ++ "_true"
        let endLabel := "." ++ name ++ toString (t.body.labelCount + 2) ++ "_end"
        let t0 : TSt := { t with body := { t.body with labelCount := t.body.labelCount + 2 } }
        let t1 ← tacNode fuel l t0
        let lop ← getResult t1
        let t2 := emit (.jumpIfNotZero lop trueLabel) t1
        let t3 ← tacNode fuel r t2
        let rop ← getResult t3
        let t4 := emit (.jumpIfNotZero rop trueLabel) t3
        let dest : PseudoRegister := ⟨t4.body.name, t4.body.variableCount⟩
        let t5 := emit (.jump endLabel) (emit (.storeValue dest (.num 0)) t4)
        let t6 := emit (.labelIns trueLabel) t5
        let t7 := emit (.storeValue dest (.num 1)) t6
        let t8 := emit (.labelIns endLabel) t7
        .ok { bumpVC t8 with result := some (.reg dest) }
      else do
        let t1 ← tacNode fuel l t
        let lop ← getResult t1
        let t2 ← tacNode fuel r t1
        let rop ← getResult t2
        let dest : PseudoRegister := ⟨t2.body.name, t2.body.variableCount⟩
        .ok { bumpVC (emit (.binaryOp dest op lop rop) t2) with result := some (.reg dest) }
    | .constNode n => .ok { t with result := some (.num n) }
    | .var id =>
      match fbFind t.body.varMap id with
      | none => .error (.semErr "Undeclared variable")
      | some r => .ok { t with result := some (.reg r) }
    | .postfixNode v op => do
      let t1 ← tacNode fuel v t
      let vr ← getResult t1
      let temp1 : PseudoRegister := ⟨t1.body.name, t1.body.variableCount⟩
      let t2 := bumpVC (emit (.storeValue temp1 vr) t1)
      let temp2 : PseudoRegister := ⟨t2.body.name, t2.body.variableCount⟩
      let t3 := bumpVC (emit (.binaryOp temp2 op vr (.num 1)) t2)
      match vr with
      | .reg vreg =>
        .ok { emit (.storeValue vreg (.reg temp2)) t3 with result := some (.reg temp1) }
      | .num _ => .error (.logicErr "bad variant access")
    | .prefixNode v op => do
      let t1 ← tacNode fuel v t
      let vr ← getResult t1
      match vr with
      | .reg vreg => .ok (bumpVC (emit (.binaryOp vreg op vr (.num 1)) t1))
      | .num _ => .error (.logicErr "bad variant access")
    | .condition c tB eB isTernary =>
      if isTernary then do
        let t1 ← tacNode fuel c t
        let cond ← getResult t1
        let name := t1.body.name
        let elseLabel := "." ++ name ++ toString (t1.body.labelCount + 1) ++ "_else"
        let endLabel := "." ++ name ++ toString (t1.body.labelCount + 2) ++ "_end"
        let dest : PseudoRegister := ⟨name, t1.body.variableCount⟩
        let t2 : TSt := bumpVC { t1 with body := { t1.body with
                                 labelCount := t1.body.labelCount + 2 } }
        let t3 := emit (.jumpIfZero cond elseLabel) t2
        let t4 ← tacOptMandatory fuel tB t3
        let r1 ← getResult t4
        let t5 := emit (.jump endLabel) (emit (.storeValue dest r1) t4)
        let t6 := emit (.labelIns elseLabel) t5
        let t7 ← tacOptMandatory fuel eB t6
        let r2 ← getResult t7
        let t8 := emit (.labelIns endLabel) (emit (.storeValue dest r2) t7)
        .ok { t8 with result := some (.reg dest) }
      else
        match eB with
        | none => do
          let t1 ← tacNode fuel c t
          let cond ← getResult t1
          let endLabel := "." ++ t1.body.name ++ toString (t1.body.labelCount + 1) ++ "_end"
          let t2 : TSt := { t1 with body := { t1.body with
                            labelCount := t1.body.labelCount + 1 } }
          let t3 := emit (.jumpIfZero cond endLabel) t2
          let t4 ← tacOptMandatory fuel tB t3
          .ok { emit (.labelIns endLabel) t4 with result := none }
        | some eb => do
          let t1 ← tacNode fuel c t
          let cond ← getResult t1
          let name := t1.body.name
          let elseLabel := "." ++ name ++ toString (t1.body.labelCount + 1) ++ "_else"
          let endLabel := "." ++ name ++ toString (t1.body.labelCount + 2) ++ "_end"
          let t2 : TSt := { t1 with body := { t1.body with
                            labelCount := t1.body.labelCount + 2 } }
          let t3 := emit (.jumpIfZero cond elseLabel) t2
          let t4 ← tacOptMandatory fuel tB t3
          let t5 := emit (.labelIns elseLabel) (emit (.jump endLabel) t4)
          let t6 ← tacNode fuel eb t5
          .ok { emit (.labelIns endLabel) t6 with result := none }
    | .block items => tacList fuel items t
    | .whileNode c b lab _ => do
      let startLabel := "." ++ t.body.name ++ lab ++ "_start.loop"
      let endLabel := "." ++ t.body.name ++ lab ++ "_end.loop"
      let t1 := emit (.labelIns startLabel) t
      let t2 ← tacNode fuel c t1
      let cond ← getResult t2
      let t3 := emit (.jumpIfZero cond endLabel) t2
      let t4 ← tacOpt fuel b t3
      let t5 := emit (.labelIns endLabel) (emit (.jump startLabel) t4)
      .ok { t5 with result := none }
    | .breakNode lab =>
      .ok (emit (.jump ("." ++ t.body.name ++ lab ++ "_end.loop")) t)
    | .continueNode lab isFor =>
      if isFor then .ok (emit (.jump ("." ++ t.body.name ++ lab ++ "_increment.loop")) t)
      else .ok (emit (.jump ("." ++ t.body.name ++ lab ++ "_start.loop")) t)
    | .forNode i c n b lab => do
      let startLabel := "." ++ t.body.name ++ lab ++ "_start.loop"
      let endLabel := "." ++ t.body.name ++ lab ++ "_end.loop"
      let incrementLabel := "." ++ t.body.name ++ lab ++ "_increment.loop"
      let t1 ← tacOpt fuel i t
      let t2 := emit (.labelIns startLabel) t1
      let t3 ←
        match c with
        | none => pure t2
        | some ce => do
          let tc ← tacNode fuel ce t2
          let cond ← getResult tc
          pure (emit (.jumpIfZero cond endLabel) tc)
      let t4 ← tacOpt fuel b t3
      let t5 := emit (.labelIns incrementLabel) t4
      let t6 ← tacOpt fuel n t5
      let t7 := emit (.labelIns endLabel) (emit (.jump startLabel) t6)
      .ok { t7 with result := none }

/-- Lowering of an optional child guarded by `if (node->child)` in the C++. -/
def tacOpt : Nat → Option AST → TSt → Except CErr TSt
  | 0, _, _ => .error .fuelErr
  | _ + 1, none, t => .ok t
  | fuel + 1, some a, t => tacNode fuel a t

/-- Lowering of a child the C++ dereferences unconditionally (`ifTrue`); a null
child would be undefined behaviour. -/
def tacOptMandatory : Nat → Option AST → TSt → Except CErr TSt
  | 0, _, _ => .error .fuelErr
  | _ + 1, none, _ => .error (.logicErr "null child dereference")
  | fuel + 1, some a, t => tacNode fuel a t

/-- Lowering of the items of a block. -/
def tacList : Nat → List AST → TSt → Except CErr TSt
  | 0, _, _ => .error .fuelErr
  | _ + 1, [], t => .ok t
  | fuel + 1, a :: rest, t => do
    let t1 ← tacNode fuel a t
    tacList fuel rest t1

end

/-- `FunctionDefinitionNode::generate` (ast_nodes.cpp): resolve, lower to TAC,
and append the default `Return(0)` when `main` does not end in a return.  (The
C++ reads `instructions.back()`; the list is never empty because lowering a
function definition emits the function header first.) -/
def generate (fuel : Nat) (fd : AST) (fname : String) : Except CErr FBody := do
  let resolved ← resolveFunction fuel fd fname
  let t0 : TSt := { body := { name := fname, variableCount := 1, labelCount := 0,
                              instructions := [], varMap := [] }, result := none }
  let t1 ← tacNode fuel resolved t0
  let body := t1.body
  let needDefault :=
    (match body.instructions.getLast? with
     | some (.returnIns _) => false
     | _ => true) && body.name == "main"
  .ok (if needDefault
       then { body with instructions := body.instructions ++ [.returnIns (some (.num 0))] }
       else body)

/-- `ProgramNode::generate`: dispatch to the single function definition.  (The
parser always produces this shape; anything else is an internal error.) -/
def generateProgram (fuel : Nat) (p : AST) : Except CErr FBody :=
  match p with
  | .program (.functionDefinition id body) => generate fuel (.functionDefinition id body) id
  | _ => .error (.logicErr "not a program with one function")

/-! ## Assembly emission (src/unnamed/part_017, with DEBUG = false)

Each emitted text line is modelled as one abstract instruction whose `render`
is exactly the line the C++ writes into the stringstream. -/

/-- The 32-bit scratch registers the emitter uses. -/
inductive Reg
  | eax
  | ecx
  | edx
  | r10d
  | r11d
  deriving DecidableEq, Repr

/-- An assembly operand: immediate, stack slot of a pseudo-register
(addressed as -4*position(%rbp)), scratch register, or the %cl byte. -/
inductive Opnd
  | imm (n : Nat)
  | mem (k : Nat)
  | reg (r : Reg)
  | cl
  deriving DecidableEq, Repr

/-- Condition codes of the emitted setcc instructions. -/
inductive CC
  | e
  | ne
  | l
  | g
  | le
  | ge
  deriving DecidableEq, Repr

/-- One emitted line of AT&T assembly. -/
inductive Ins
  | globalDir (name : String)
  | labelDef (s : String)
  | pushqRbp
  | movqRspRbp
  | movqRbpRsp
  | popqRbp
  | retq
  | subqRsp (n : Nat)
  | cdq
  | movl (src dst : Opnd)
  | negl (d : Opnd)
  | notl (d : Opnd)
  | addl (s d : Opnd)
  | subl (s d : Opnd)
  | andl (s d : Opnd)
  | orl (s d : Opnd)
  | xorl (s d : Opnd)
  | shll (cnt d : Opnd)
  | shrl (cnt d : Opnd)
  | imull (s d : Opnd)
  | idivIns (s : Opnd)
  | cmpl (s d : Opnd)
  | setcc (cc : CC) (d : Opnd)
  | jmp (l : String)
  | je (l : String)
  | jne (l : String)
  deriving DecidableEq, Repr

/-- Register spelling in AT&T syntax. -/
def Reg.render : Reg → String
  | .eax => "%eax"
  | .ecx => "%ecx"
  | .edx => "%edx"
  | .r10d => "%r10d"
  | .r11d => "%r11d"

/-- Operand spelling: `OperandToAsm` renders literals as $n and pseudo-registers
as -4*position(%rbp). -/
def Opnd.render : Opnd → String
  | .imm n => "$" ++ toString n
  | .mem k => "-" ++ toString (4 * k) ++ "(%rbp)"
  | .reg r => r.render
  | .cl => "%cl"

/-- Condition-code suffix. -/
def CC.render : CC → String
  | .e => "e"
  | .ne => "ne"
  | .l => "l"
  | .g => "g"
  | .le => "le"
  | .ge => "ge"

/-- The exact text line of each instruction (without the trailing newline). -/
def Ins.render : Ins → String
  | .globalDir name => ".global " ++ name
  | .labelDef s => s ++ ":"
  | .pushqRbp => "pushq %rbp"
  | .movqRspRbp => "movq %rsp, %rbp"
  | .movqRbpRsp => "movq %rbp, %rsp"
  | .popqRbp => "popq %rbp"
  | .retq => "ret"
  | .subqRsp n => "subq $" ++ toString n ++ ", %rsp"
  | .cdq => "cdq"
  | .movl s d => "movl " ++ s.render ++ ", " ++ d.render
  | .negl d => "negl " ++ d.render
  | .notl d => "notl " ++ d.render
  | .addl s d => "addl " ++ s.render ++ ", " ++ d.render
  | .subl s d => "subl " ++ s.render ++ ", " ++ d.render
  | .andl s d => "andl " ++ s.render ++ ", " ++ d.render
  | .orl s d => "orl " ++ s.render ++ ", " ++ d.render
  | .xorl s d => "xorl " ++ s.render ++ ", " ++ d.render
  | .shll c d => "shll " ++ c.render ++ ", " ++ d.render
  | .shrl c d => "shrl " ++ c.render ++ ", " ++ d.render
  | .imull s d => "imull " ++ s.render ++ ", " ++ d.render
  | .idivIns s => "idiv " ++ s.render
  | .cmpl s d => "cmpl " ++ s.render ++ ", " ++ d.render
  | .setcc cc d => "set" ++ cc.render ++ " " ++ d.render
  | .jmp l => "jmp " ++ l
  | .je l => "je " ++ l
  | .jne l => "jne " ++ l

/-- `OperandToAsm` as an operand translation. -/
def operandToAsm : Operand → Opnd
  | .num n => .imm n
  | .reg r => .mem r.position

/-- `src2.find(dollar) != npos`: exactly the literal operands render with $. -/
def isImmOperand : Operand → Bool
  | .num _ => true
  | .reg _ => false

/-- The arithmetic opcode selection for + - & | ^ in BinaryOp emission. -/
def arithIns : BinaryOperator → Opnd → Opnd → Ins
  | .ADD, s, d => .addl s d
  | .SUBTRACT, s, d => .subl s d
  | .BITWISE_AND, s, d => .andl s d
  | .BITWISE_OR, s, d => .orl s d
  | _, s, d => .xorl s d

/-- The setcc condition for each relational operator. -/
def relCC : BinaryOperator → CC
  | .EQUALS => .e
  | .NOT_EQUALS => .ne
  | .LESS_THAN => .l
  | .GREATER_THAN => .g
  | .LESS_THAN_OR_EQUAL => .le
  | _ => .ge

/-- `makeAssembly` of each TAC instruction (part_017, DEBUG = false).  The body
is passed for AllocateStackInstruction, which reads the (final) variableCount at
emission time.  `returnIns none` would dereference a null shared_ptr in the C++
(unreachable from parsed programs) and emits nothing here. -/
def tacToAsm (body : FBody) : TAC → List Ins
  | .functionIns name => [.globalDir name, .labelDef name, .pushqRbp, .movqRspRbp]
  | .allocateStack => [.subqRsp (body.variableCount * 4)]
  | .labelIns s => [.labelDef s]
  | .jump s => [.jmp s]
  | .jumpIfZero o s =>
    [.movl (operandToAsm o) (.reg .edx), .cmpl (.imm 0) (.reg .edx), .je s]
  | .jumpIfNotZero o s =>
    [.movl (operandToAsm o) (.reg .edx), .cmpl (.imm 0) (.reg .edx), .jne s]
  | .storeValue d v =>
    match v with
    | .reg _ => [.movl (operandToAsm v) (.reg .r10d), .movl (.reg .r10d) (.mem d.position)]
    | .num n => [.movl (.imm n) (.mem d.position)]
  | .unaryOp d op arg =>
    [.movl (operandToAsm arg) (.reg .r10d), .movl (.reg .r10d) (.mem d.position)] ++
    (match op with
     | .NEGATION => [.negl (.mem d.position)]
     | .BITWISE_NOT => [.notl (.mem d.position)]
     | .LOGICAL_NOT => [.cmpl (.imm 0) (.mem d.position), .setcc .e (.mem d.position)]
     | .UNARY_ADD => [])
  | .binaryOp d op l r =>
    let src1 := operandToAsm l
    let src2 := operandToAsm r
    let dm : Opnd := .mem d.position
    if op = .ADD || op = .SUBTRACT || op = .BITWISE_AND || op = .BITWISE_OR ||
       op = .BITWISE_XOR || op = .SHIFT_LEFT || op = .SHIFT_RIGHT then
      [.movl src1 (.reg .r10d)] ++
      (if op = .SHIFT_LEFT || op = .SHIFT_RIGHT then
        (if isImmOperand r then
          [(if op = .SHIFT_LEFT then Ins.shll else Ins.shrl) src2 (.reg .r10d)]
        else
          [.movl src2 (.reg .ecx),
           (if op = .SHIFT_LEFT then Ins.shll else Ins.shrl) .cl (.reg .r10d)])
      else
        (if isImmOperand r then [arithIns op src2 (.reg .r10d)]
         else [.movl src2 (.reg .r11d), arithIns op (.reg .r11d) (.reg .r10d)])) ++
      [.movl (.reg .r10d) dm]
    else if op = .MULTIPLY then
      [.movl src1 (.reg .r11d)] ++
      (if isImmOperand r then [.imull src2 (.reg .r11d)]
       else [.movl src2 (.reg .r10d), .imull (.reg .r10d) (.reg .r11d)]) ++
      [.movl (.reg .r11d) dm]
    else if op = .DIVIDE || op = .MODULO then
      [.movl src1 (.reg .eax), .cdq, .movl src2 (.reg .ecx), .idivIns (.reg .ecx),
       .movl (.reg (if op = .DIVIDE then Reg.eax else Reg.edx)) dm]
    else if op = .EQUALS || op = .NOT_EQUALS || op = .LESS_THAN || op = .GREATER_THAN ||
            op = .LESS_THAN_OR_EQUAL || op = .GREATER_THAN_OR_EQUAL then
      [.movl src1 (.reg .edx), .cmpl src2 (.reg .edx), .movl (.imm 0) dm,
       .setcc (relCC op) dm]
    else []
  | .returnIns v =>
    match v with
    | some o => [.movl (operandToAsm o) (.reg .eax), .movqRbpRsp, .popqRbp, .retq]
    | none => []

/-- All lines of a function body: each TAC instruction emitted against the final
body (AllocateStack reads the final counter). -/
def emitBody (body : FBody) : List Ins :=
  (body.instructions.map (tacToAsm body)).flatten

/-- The assembly text: every line followed by a newline, concatenated in order. -/
def asmTextOf (prog : List Ins) : String :=
  prog.foldl (fun acc i => acc ++ i.render ++ "\n") ""

/-! ## Machine semantics for the emitted subset of x86-64

The execution model for "assemble and run the text": registers and 4-byte stack
slots hold Nat values below 2^32; flags are modelled by the two signed values of
the last cmpl.  This models the external assembler/CPU, which is an I/O boundary
of the repository (its simulator drives Keystone/Unicorn). -/

/-- Truncated (toward-zero) integer division, the semantics of idiv. -/
def tdivInt (a b : Int) : Int :=
  if (0 ≤ a) = (0 ≤ b) then ((a.natAbs / b.natAbs : Nat) : Int)
  else -((a.natAbs / b.natAbs : Nat) : Int)

/-- The idiv remainder: dividend minus divisor times quotient (sign of dividend). -/
def tmodInt (a b : Int) : Int := a - b * tdivInt a b

/-- Machine state: scratch registers, stack slots keyed by pseudo-register
position, and the two signed comparands of the last cmpl. -/
structure MState where
  eax : Nat
  ecx : Nat
  edx : Nat
  r10d : Nat
  r11d : Nat
  mem : List (Nat × Nat)
  cmpA : Int
  cmpB : Int
  deriving Repr

/-- The initial machine state (registers and fresh stack slots read as zero). -/
def initMState : MState :=
  { eax := 0, ecx := 0, edx := 0, r10d := 0, r11d := 0, mem := [], cmpA := 0, cmpB := 0 }

/-- Read a stack slot (uninitialized slots read as zero). -/
def memRead (m : List (Nat × Nat)) (k : Nat) : Nat :=
  match m.find? (fun p => p.1 == k) with
  | some p => p.2
  | none => 0

/-- Write a stack slot. -/
def memWrite (m : List (Nat × Nat)) (k v : Nat) : List (Nat × Nat) :=
  match m with
  | [] => [(k, v)]
  | (k2, v2) :: rest => if k2 == k then (k, v) :: rest else (k2, v2) :: memWrite rest k v

/-- Read a register. -/
def MState.getReg (s : MState) : Reg → Nat
  | .eax => s.eax
  | .ecx => s.ecx
  | .edx => s.edx
  | .r10d => s.r10d
  | .r11d => s.r11d

/-- Write a register. -/
def MState.setReg (s : MState) : Reg → Nat → MState
  | .eax, v => { s with eax := v }
  | .ecx, v => { s with ecx := v }
  | .edx, v => { s with edx := v }
  | .r10d, v => { s with r10d := v }
  | .r11d, v => { s with r11d := v }

/-- Read an operand value. -/
def MState.get (s : MState) : Opnd → Nat
  | .imm n => n % M32
  | .mem k => memRead s.mem k
  | .reg r => s.getReg r
  | .cl => s.ecx % 256

/-- Write an operand (never an immediate in emitted code). -/
def MState.set (s : MState) : Opnd → Nat → MState
  | .imm _, _ => s
  | .mem k, v => { s with mem := memWrite s.mem k v }
  | .reg r, v => s.setReg r v
  | .cl, v => { s with ecx := (s.ecx / 256) * 256 + v % 256 }

/-- Evaluate a setcc condition from the recorded comparands. -/
def ccHolds (cc : CC) (a b : Int) : Bool :=
  match cc with
  | .e => a = b
  | .ne => a ≠ b
  | .l => a < b
  | .g => b < a
  | .le => a ≤ b
  | .ge => b ≤ a

/-- Position of a label in the instruction list. -/
def findLabel (prog : List Ins) (l : String) : Option Nat :=
  prog.findIdx? (fun i => i = .labelDef l)

/-- Run the machine: fuel-bounded small steps from a program counter.  `ret`
stops with the signed 32-bit value of %eax; running off the end, a missing
label, or division by zero yields none. -/
def machineRun : Nat → List Ins → Nat → MState → Option Int
  | 0, _, _, _ => none
  | fuel + 1, prog, pc, s =>
    match prog.get? pc with
    | none => none
    | some ins =>
      match ins with
      | .retq => some (toInt32 s.eax)
      | .jmp l =>
        match findLabel prog l with
        | some idx => machineRun fuel prog idx s
        | none => none
      | .je l =>
        if s.cmpA = s.cmpB then
          match findLabel prog l with
          | some idx => machineRun fuel prog idx s
          | none => none
        else machineRun fuel prog (pc + 1) s
      | .jne l =>
        if s.cmpA ≠ s.cmpB then
          match findLabel prog l with
          | some idx => machineRun fuel prog idx s
          | none => none
        else machineRun fuel prog (pc + 1) s
      | .cmpl src d =>
        machineRun fuel prog (pc + 1)
          { s with cmpA := toInt32 (s.get d), cmpB := toInt32 (s.get src) }
      | .movl src d => machineRun fuel prog (pc + 1) (s.set d (s.get src))
      | .negl d => machineRun fuel prog (pc + 1) (s.set d ((M32 - s.get d) % M32))
      | .notl d => machineRun fuel prog (pc + 1) (s.set d (M32 - 1 - s.get d % M32))
      | .addl src d =>
        machineRun fuel prog (pc + 1) (s.set d ((s.get d + s.get src) % M32))
      | .subl src d =>
        machineRun fuel prog (pc + 1) (s.set d ((s.get d + M32 - s.get src % M32) % M32))
      | .andl src d =>
        machineRun fuel prog (pc + 1) (s.set d (Nat.land (s.get d) (s.get src)))
      | .orl src d =>
        machineRun fuel prog (pc + 1) (s.set d (Nat.lor (s.get d) (s.get src)))
      | .xorl src d =>
        machineRun fuel prog (pc + 1) (s.set d (Nat.xor (s.get d) (s.get src)))
      | .shll cnt d =>
        let c := (match cnt with | .imm n => n | other => s.get other) % 32
        machineRun fuel prog (pc + 1) (s.set d ((s.get d <<< c) % M32))
      | .shrl cnt d =>
        let c := (match cnt with | .imm n => n | other => s.get other) % 32
        machineRun fuel prog (pc + 1) (s.set d (s.get d >>> c))
      | .imull src d =>
        machineRun fuel prog (pc + 1) (s.set d ((s.get d * s.get src) % M32))
      | .cdq =>
        machineRun fuel prog (pc + 1)
          { s with edx := if toInt32 s.eax < 0 then M32 - 1 else 0 }
      | .idivIns src =>
        let divisor := toInt32 (s.get src)
        if divisor = 0 then none
        else
          let d64 := s.edx * M32 + s.eax
          let sd : Int := if d64 < 9223372036854775808 then (d64 : Int)
                          else (d64 : Int) - 18446744073709551616
          let q := tdivInt sd divisor
          let r := tmodInt sd divisor
          machineRun fuel prog (pc + 1) { s with eax := toNat32 q, edx := toNat32 r }
      | .setcc cc d =>
        let v := s.get d
        let bit := if ccHolds cc s.cmpA s.cmpB then 1 else 0
        machineRun fuel prog (pc + 1) (s.set d ((v / 256) * 256 + bit))
      | _ => machineRun fuel prog (pc + 1) s

/-! ## TAC-level execution with a trace

For the short-circuit property the spec speaks of executed TAC instructions
(StoreValue(b, 1)); this interpreter executes the instruction list directly with
the same value semantics as the machine above and records every executed
instruction in order. -/

/-- TAC machine memory: pseudo-register position to value (< 2^32). -/
structure TacM where
  mem : List (Nat × Nat)
  deriving Repr

/-- Read a TAC operand. -/
def tacGet (m : TacM) : Operand → Nat
  | .num n => n % M32
  | .reg r => memRead m.mem r.position

/-- Value of a unary TAC operation, matching the emitted assembly (LOGICAL_NOT
keeps the upper three bytes of the moved value, as sete writes one byte). -/
def unaryEval (op : UnaryOperator) (x : Nat) : Nat :=
  match op with
  | .NEGATION => (M32 - x) % M32
  | .UNARY_ADD => x
  | .BITWISE_NOT => M32 - 1 - x % M32
  | .LOGICAL_NOT => (x / 256) * 256 + (if x = 0 then 1 else 0)

/-- Value of a binary TAC operation, matching the emitted assembly (shifts mask
the count to 5 bits, right shift is logical shrl, division truncates; division
by zero faults).  LOGICAL_AND and LOGICAL_OR never appear as BinaryOp
instructions (the lowering branches instead) and fault here. -/
def binEval (op : BinaryOperator) (x y : Nat) : Option Nat :=
  match op with
  | .ADD => some ((x + y) % M32)
  | .SUBTRACT => some ((x + M32 - y % M32) % M32)
  | .MULTIPLY => some ((x * y) % M32)
  | .DIVIDE => if toInt32 y = 0 then none else some (toNat32 (tdivInt (toInt32 x) (toInt32 y)))
  | .MODULO => if toInt32 y = 0 then none else some (toNat32 (tmodInt (toInt32 x) (toInt32 y)))
  | .BITWISE_XOR => some (Nat.xor x y)
  | .BITWISE_AND => some (Nat.land x y)
  | .BITWISE_OR => some (Nat.lor x y)
  | .SHIFT_LEFT => some ((x <<< (y % 32)) % M32)
  | .SHIFT_RIGHT => some (x >>> (y % 32))
  | .EQUALS => some (if toInt32 x = toInt32 y then 1 else 0)
  | .NOT_EQUALS => some (if toInt32 x = toInt32 y then 0 else 1)
  | .LESS_THAN => some (if toInt32 x < toInt32 y then 1 else 0)
  | .GREATER_THAN => some (if toInt32 y < toInt32 x then 1 else 0)
  | .LESS_THAN_OR_EQUAL => some (if toInt32 x ≤ toInt32 y then 1 else 0)
  | .GREATER_THAN_OR_EQUAL => some (if toInt32 y ≤ toInt32 x then 1 else 0)
  | .LOGICAL_AND => none
  | .LOGICAL_OR => none

/-- Position of a TAC label. -/
def tacFindLabel (prog : List TAC) (l : String) : Option Nat :=
  prog.findIdx? (fun i => i = .labelIns l)

/-- Execute a TAC program, collecting the executed instructions in order.  Stops
at Return with its (optional) value; none on fuel exhaustion, a missing label,
or a fault. -/
def tacRunTrace : Nat → List TAC → Nat → TacM → List TAC →
    Option (Option Int × List TAC)
  | 0, _, _, _, _ => none
  | fuel + 1, prog, pc, m, tr =>
    match prog.get? pc with
    | none => none
    | some i =>
      let tr2 := tr ++ [i]
      match i with
      | .functionIns _ => tacRunTrace fuel prog (pc + 1) m tr2
      | .allocateStack => tacRunTrace fuel prog (pc + 1) m tr2
      | .labelIns _ => tacRunTrace fuel prog (pc + 1) m tr2
      | .jump l =>
        match tacFindLabel prog l with
        | some idx => tacRunTrace fuel prog idx m tr2
        | none => none
      | .jumpIfZero o l =>
        if tacGet m o = 0 then
          match tacFindLabel prog l with
          | some idx => tacRunTrace fuel prog idx m tr2
          | none => none
        else tacRunTrace fuel prog (pc + 1) m tr2
      | .jumpIfNotZero o l =>
        if tacGet m o ≠ 0 then
          match tacFindLabel prog l with
          | some idx => tacRunTrace fuel prog idx m tr2
          | none => none
        else tacRunTrace fuel prog (pc + 1) m tr2
      | .storeValue d v =>
        tacRunTrace fuel prog (pc + 1) ⟨memWrite m.mem d.position (tacGet m v)⟩ tr2
      | .unaryOp d op arg =>
        tacRunTrace fuel prog (pc + 1)
          ⟨memWrite m.mem d.position (unaryEval op (tacGet m arg))⟩ tr2
      | .binaryOp d op l r =>
        match binEval op (tacGet m l) (tacGet m r) with
        | some v => tacRunTrace fuel prog (pc + 1) ⟨memWrite m.mem d.position v⟩ tr2
        | none => none
      | .returnIns v =>
        some ((v.map (fun o => toInt32 (tacGet m o))), tr2)

/-! ## Drivers -/

/-- `compile` (src/unnamed/part_011): lex, parse, generate; the resulting
text.  `llc0` is the indeterminate initial value of the uninitialized
`Parser::Impl::loopLabelCount`. -/
def compileSource (source : String) (llc0 : Int) : Except CErr String := do
  let p ← parserParse (lex source) llc0
  let body ← generateProgram 4096 p
  .ok (asmTextOf (emitBody body))

/-- The emitted abstract instruction list of a source program. -/
def compileAsm (source : String) (llc0 : Int) : Except CErr (List Ins) := do
  let p ← parserParse (lex source) llc0
  let body ← generateProgram 4096 p
  .ok (emitBody body)

/-- Assemble-and-execute: the signed 32-bit value the compiled program returns,
none when compilation or execution fails. -/
def runCompiled (source : String) (llc0 : Int) (fuel : Nat) : Option Int :=
  match compileAsm source llc0 with
  | .ok prog => machineRun fuel prog 0 initMState
  | .error _ => none

/-- The observable outcome of the CLI process: exit code and stderr lines. -/
structure CliResult where
  exitCode : Nat
  stderrLines : List String
  deriving DecidableEq, Repr

/-- `main` (src/unnamed/part_000): missing argument and missing file print a
diagnostic and return 1; then compilation runs, a caught `compiler_error` prints
its message to std::cerr, and the function falls through to `return 0`.  An
uncaught exception (std::logic_error) aborts the process (none). -/
def mainModel (hasArg : Bool) (fileOk : Bool) (source : String) : Option CliResult :=
  if !hasArg then some ⟨1, ["Usage: compiler <input file>"]⟩
  else if !fileOk then some ⟨1, ["File not found"]⟩
  else
    match compileSource source 0 with
    | .ok _ => some ⟨0, []⟩
    | .error e =>
      match e with
      | .synErr m => some ⟨0, [m]⟩
      | .semErr m => some ⟨0, [m]⟩
      | _ => none

/-! ## Probe programs and helper predicates for the individual properties -/

/-- End-to-end scenario 1 of the spec. -/
def c1src : String :=
  "int main() { return ((42*3)-(15/5)%4+(7<<2))&~(255-128)|((16>>2)^10); }"

/-- End-to-end scenario 4 of the spec (initializer 0 as the spec writes it). -/
def c2src : String := "int main() { int a = 0; return a = ++a + a++ + (a += 2); }"

/-- The do-while probe: body must run once if do-while is implemented (the
commented-out TestDoWhile of test_loops.cpp uses this program and expects 11). -/
def c4src : String := "int main() { int i = 10; do { i++; } while (i < 10); return i; }"

/-- The corresponding plain-while program: identical except `do` removed and the
condition moved in front of the body. -/
def c4srcWhile : String := "int main() { int i = 10; while (i < 10) { i++; } return i; }"

/-- End-to-end scenario 6 of the spec (INT_MAX overflow). -/
def c6src : String := "int main() { int a=2147483647; a+=1; return a; }"

/-- A minimal source with one loop, for the determinism property (loop labels
are the only place the parser state reaches the output text). -/
def c8src : String := "int main() { while (0) ; return 0; }"

/-- A source with a missing semicolon (spec negative scenario: SyntaxError). -/
def c9src : String := "int main() { return 0 }"

/-- The resolved AST of `a && (b = 1)` evaluated for its effect, preceded by
`int a = v; int b = 0;` and followed by `return b;` — the short-circuit probe
of spec section 8.1 as a function-definition AST with parametric a-value. -/
def andProgram (v : Nat) : AST :=
  .program (.functionDefinition "main" (.block [
    .declaration "a" (some (.constNode v)),
    .declaration "b" (some (.constNode 0)),
    .binary .LOGICAL_AND (.var "a") (.assignment (.var "b") (.constNode 1)),
    .returnStmt (some (.var "b"))]))

/-- The same probe with `a || (b = 1)`. -/
def orProgram (v : Nat) : AST :=
  .program (.functionDefinition "main" (.block [
    .declaration "a" (some (.constNode v)),
    .declaration "b" (some (.constNode 0)),
    .binary .LOGICAL_OR (.var "a") (.assignment (.var "b") (.constNode 1)),
    .returnStmt (some (.var "b"))]))

/-- In both probe programs, `b` is the second declaration and thus lives in
pseudo-register slot 2; this is the `StoreValue(b, 1)` instruction. -/
def storeB1 : TAC := .storeValue ⟨"main", 2⟩ (.num 1)

/-- Lower a program and execute its TAC, returning the result and the executed
instruction trace. -/
def runTraceOf (p : AST) : Option (Option Int × List TAC) :=
  match generateProgram 4096 p with
  | .ok b => tacRunTrace 1000 b.instructions 0 ⟨[]⟩ []
  | .error _ => none

/-- The lowered program runs to completion and executes the given instruction. -/
def traceExecutes (p : AST) (i : TAC) : Bool :=
  match runTraceOf p with
  | some (_, tr) => decide (i ∈ tr)
  | none => false

/-- The lowered program runs to completion and never executes the given
instruction. -/
def traceSkips (p : AST) (i : TAC) : Bool :=
  match runTraceOf p with
  | some (_, tr) => decide (i ∉ tr)
  | none => false

/-- Scope probe: a name declared inside an inner block, used after the block. -/
def blockScopeProgram (nm : String) (v1 : Nat) : AST :=
  .functionDefinition "main" (.block [
    .block [.declaration nm (some (.constNode v1))],
    .returnStmt (some (.var nm))])

/-- Scope probe: outer declaration, shadowing declaration in an inner block,
use after the block. -/
def blockShadowProgram (nm : String) (v1 v2 : Nat) : AST :=
  .functionDefinition "main" (.block [
    .declaration nm (some (.constNode v1)),
    .block [.declaration nm (some (.constNode v2))],
    .returnStmt (some (.var nm))])

/-- Scope probe: a name declared in a `for` initializer, used after the `for`. -/
def forScopeProgram (nm : String) (v1 : Nat) : AST :=
  .functionDefinition "main" (.block [
    .forNode (some (.declaration nm (some (.constNode v1)))) (some (.constNode 0)) none none "0",
    .returnStmt (some (.var nm))])

/-- Scope probe: outer declaration, shadowing `for`-initializer declaration,
use after the `for`. -/
def forShadowProgram (nm : String) (v1 v2 : Nat) : AST :=
  .functionDefinition "main" (.block [
    .declaration nm (some (.constNode v1)),
    .forNode (some (.declaration nm (some (.constNode v2)))) (some (.constNode 0)) none none "0",
    .returnStmt (some (.var nm))])

/-- The parsed AST of a single statement, as its string encoding (none when the
statement does not parse or is empty). -/
def parsedStmtEncode (src : String) : Option String :=
  match parseStatement 64 { toks := lex src, loopLabelCount := 0 } with
  | .ok (some a, _) => some (encode a)
  | _ => none

/-! ## Slot-index bounds (the stack-coverage invariant)

Positions of every pseudo-register mentioned by an operand or instruction, and
the bound predicates used to show they stay below the final variable counter. -/

/-- Pseudo-register positions mentioned by an operand. -/
def opPositions : Operand → List Nat
  | .reg r => [r.position]
  | .num _ => []

/-- Pseudo-register positions mentioned by a TAC instruction. -/
def tacPositions : TAC → List Nat
  | .storeValue d v => d.position :: opPositions v
  | .unaryOp d _ a => d.position :: opPositions a
  | .binaryOp d _ l r => d.position :: (opPositions l ++ opPositions r)
  | .jumpIfZero o _ => opPositions o
  | .jumpIfNotZero o _ => opPositions o
  | .returnIns (some o) => opPositions o
  | _ => []

/-- Every position in the instruction list is at least 1 and below the bound. -/
def instrsOK (l : List TAC) (bound : Nat) : Prop :=
  ∀ i ∈ l, ∀ q ∈ tacPositions i, 1 ≤ q ∧ q < bound

/-- Every mapped variable register is at least 1 and below the bound. -/
def vmOK (m : List (String × PseudoRegister)) (bound : Nat) : Prop :=
  ∀ pr ∈ m, 1 ≤ pr.2.position ∧ pr.2.position < bound

/-- Every position of the current result operand is at least 1 and below the
bound. -/
def resOK (r : Option Operand) (bound : Nat) : Prop :=
  ∀ o, r = some o → ∀ q ∈ opPositions o, 1 ≤ q ∧ q < bound

/-- All three components bounded. -/
def StOK (t : TSt) (bound : Nat) : Prop :=
  instrsOK t.body.instructions bound ∧ vmOK t.body.varMap bound ∧ resOK t.result bound

/-- The lowering of the C2 program, used to witness the slot-bound theorem at a
concrete input. -/
def c10body : FBody :=
  match generateProgram 4096 (.program (.functionDefinition "main" (.block [
    .declaration "a" (some (.constNode 0)),
    .returnStmt (some (.binary .ADD (.var "a") (.constNode 1)))]))) with
  | .ok b => b
  | .error _ => ⟨"", 1, 0, [], []⟩

/-- Current variable counter of the visitor state. -/
def vcOf (t : TSt) : Nat := t.body.variableCount

/-- One lowering step preserves and propagates the slot-bound invariant: the
counter never decreases, stays at least 1, and state components bounded at the
old counter plus any offset stay bounded at the new counter plus that offset. -/
def Step (t t' : TSt) : Prop :=
  1 ≤ vcOf t → 1 ≤ vcOf t' ∧ vcOf t ≤ vcOf t' ∧
    ∀ k, StOK t (vcOf t + k) → StOK t' (vcOf t' + k)

end Compiler

open Compiler

/-- Claim C1, counterexample: the program of scenario 1 does not return 30; the
compiled-and-executed value is 142 (which is also what host C++ computes for the
same expression, as the unit test TestComplexArithmetic compares against). -/
theorem c1_counterexample :
    runCompiled c1src 0 2000 = some 142 ∧ runCompiled c1src 0 2000 ≠ some 30 :=
  ⟨by rfl, by decide⟩

/-- Claim C1, amended: for the scenario-1 program, the compiled program, when
assembled and executed, returns the 32-bit integer 142. -/
theorem c1_amended_eval : runCompiled c1src 0 2000 = some 142 := by rfl

/-- Claim C2, counterexample: with `int a = 0` (as the spec table writes it) the
compiled program returns 7, not 10.  (The unit test this row was copied from
initializes `a = 1`, for which the pipeline does return 10.) -/
theorem c2_counterexample :
    runCompiled c2src 0 2000 = some 7 ∧ runCompiled c2src 0 2000 ≠ some 10 :=
  ⟨by rfl, by decide⟩

/-- Claim C2, amended: for `int a=0; return a = ++a + a++ + (a+=2);` the
compiled program returns 7 (and the test variant with `int a=1` returns 10). -/
theorem c2_amended_eval :
    runCompiled c2src 0 2000 = some 7 ∧
    runCompiled "int main() { int a = 1; return a = ++a + a++ + (a += 2); }" 0 2000 =
      some 10 := by
  exact ⟨rfl, rfl⟩

/-- Claim C4, code evaluation at the failing input: `do { i++; } while (i < 10)`
with `i = 10` returns 10 — the body never executes because visitWhile ignores
the isDoWhile flag — and the do-while program compiles to the identical
instruction sequence (hence byte-identical text) as the corresponding plain
while program. -/
theorem c4_code_eval :
    runCompiled c4src 0 2000 = some 10 ∧
    (compileAsm c4src 0).isOk = true ∧
    (compileAsm c4src 0).toOption = (compileAsm c4srcWhile 0).toOption := by
  exact ⟨rfl, rfl, by decide⟩

/-- Claim C6: integer arithmetic wraps around two's-complement 32-bit: the
INT_MAX overflow program compiles and the executed program returns INT_MIN. -/
theorem c6_eval : runCompiled c6src 0 2000 = some (-2147483648) := by rfl

/-- The explicit TAC program of `orProgram v` (helper for the short-circuit
property): the lowering is uniform in the stored value v. -/
theorem orProgram_generate (v : Nat) :
    generateProgram 4096 (orProgram v) = .ok {
      name := "main", variableCount := 4, labelCount := 2,
      instructions := [
        .functionIns "main", .allocateStack,
        .storeValue ⟨"main", 1⟩ (.num v),
        .storeValue ⟨"main", 2⟩ (.num 0),
        .jumpIfNotZero (.reg ⟨"main", 1⟩) ".main1_true",
        .storeValue ⟨"main", 2⟩ (.num 1),
        .jumpIfNotZero (.reg ⟨"main", 2⟩) ".main1_true",
        .storeValue ⟨"main", 3⟩ (.num 0),
        .jump ".main2_end",
        .labelIns ".main1_true",
        .storeValue ⟨"main", 3⟩ (.num 1),
        .labelIns ".main2_end",
        .returnIns (some (.reg ⟨"main", 2⟩))],
      varMap := [("main::a::1", ⟨"main", 1⟩), ("main::b::1", ⟨"main", 2⟩)] } := by
  simp +decide [generateProgram, generate, orProgram, resolveFunction, resolveNode,
        resolveOpt, resolveList, mapFind, mapSet, popLayerBindings, mangle, tacNode,
        tacOpt, tacOptMandatory, tacList, emit, bumpVC, getResult, fbFind, fbSet,
        Bind.bind, Except.bind, Pure.pure, Except.pure]

/-- Executing the lowered `orProgram v` with nonzero v takes the short-circuit
jump at the first JumpIfNotZero: the executed trace never reaches the
assignment to b (helper for the short-circuit property). -/
theorem orProgram_trace (v : Nat) (hv : v < M32) (h0 : v ≠ 0) :
    runTraceOf (orProgram v) =
      some (some 0, [
        .functionIns "main", .allocateStack,
        .storeValue ⟨"main", 1⟩ (.num v),
        .storeValue ⟨"main", 2⟩ (.num 0),
        .jumpIfNotZero (.reg ⟨"main", 1⟩) ".main1_true",
        .labelIns ".main1_true",
        .storeValue ⟨"main", 3⟩ (.num 1),
        .labelIns ".main2_end",
        .returnIns (some (.reg ⟨"main", 2⟩))]) := by
  rw [runTraceOf, orProgram_generate v]
  simp +decide [tacRunTrace, tacGet, memRead, memWrite, tacFindLabel,
    unaryEval, binEval, toInt32, Nat.mod_eq_of_lt hv, h0]

/-- Claim C3, counterexample: for `a && (b = 1)` executed with `a` non-zero
(here a = 1), the emitted program does execute StoreValue(b, 1) — the claim has
the conditions swapped (with `a` non-zero the right operand of && is
evaluated). -/
theorem c3_counterexample : traceExecutes (andProgram 1) storeB1 = true := by decide

/-- Claim C3, amended: for `a && (b = 1)` executed with `a` zero, and for
`a || (b = 1)` executed with `a` non-zero, the emitted program never executes
StoreValue(b, 1) in that run. -/
theorem c3_amended (v : Nat) (hv : v < M32) (h0 : v ≠ 0) :
    traceSkips (andProgram 0) storeB1 = true ∧
    traceSkips (orProgram v) storeB1 = true := by
  refine ⟨by decide, ?_⟩
  rw [traceSkips, orProgram_trace v hv h0]
  simp +decide [storeB1]

/-- Witness for the amended C3 at a = 5. -/
theorem c3_amended_witness :
    traceSkips (andProgram 0) storeB1 = true ∧
    traceSkips (orProgram 5) storeB1 = true :=
  c3_amended 5 (by decide) (by decide)

/-- Claim C5: a variable declared inside a block or inside a `for` initializer
is out of scope afterwards — using it then is a SemanticError when no outer
binding exists (first two conjuncts), and resolves to the outer binding when
one exists (last two conjuncts, where the use resolves to the outer layer-1
renaming).  Universally in the variable name and the initializer values. -/
theorem c5_scope (nm : String) (v1 v2 : Nat) :
    resolveFunction 1000 (blockScopeProgram nm v1) "main" =
      .error (.semErr "Variable out of scope") ∧
    resolveFunction 1000 (forScopeProgram nm v1) "main" =
      .error (.semErr "Variable out of scope") ∧
    resolveFunction 1000 (blockShadowProgram nm v1 v2) "main" =
      .ok (.functionDefinition "main" (.block [
        .declaration (mangle "main" nm 1) (some (.constNode v1)),
        .block [.declaration (mangle "main" nm 2) (some (.constNode v2))],
        .returnStmt (some (.var (mangle "main" nm 1)))])) ∧
    resolveFunction 1000 (forShadowProgram nm v1 v2) "main" =
      .ok (.functionDefinition "main" (.block [
        .declaration (mangle "main" nm 1) (some (.constNode v1)),
        .forNode (some (.declaration (mangle "main" nm 2) (some (.constNode v2))))
          (some (.constNode 0)) none none "0",
        .returnStmt (some (.var (mangle "main" nm 1)))])) := by
  refine ⟨?_, ?_, ?_, ?_⟩ <;>
    simp [resolveFunction, blockScopeProgram, forScopeProgram, blockShadowProgram,
          forShadowProgram, resolveNode, resolveOpt, resolveList, mapFind, mapSet,
          popLayerBindings, mangle, Bind.bind, Except.bind, Pure.pure, Except.pure]

/-- Claim C9, code evaluation at the failing input: compiling a program with a
missing semicolon raises a SyntaxError, and the modelled CLI prints the
diagnostic to standard error yet exits with code 0 (the catch block in `main`
falls through to `return 0`). -/
theorem c9_code_eval :
    compileSource c9src 0 = .error (.synErr "Expected other symbol") ∧
    mainModel true true c9src = some ⟨0, ["Expected other symbol"]⟩ := by
  exact ⟨rfl, rfl⟩

/-- A structural clone of an lvalue tree is structurally equal to the original:
`LvalueNode::clone` copies VariableNode and PrefixNode recursively. -/
theorem cloneLv_self : ∀ (x : AST), isLvalueTree x = true → clone x = some x
  | .var _, _ => rfl
  | .prefixNode v _, h => by
    simp only [isLvalueTree] at h
    simp [clone, cloneLv_self v h]
  | .program _, h => by simp [isLvalueTree] at h
  | .functionDefinition _ _, h => by simp [isLvalueTree] at h
  | .block _, h => by simp [isLvalueTree] at h
  | .declaration _ _, h => by simp [isLvalueTree] at h
  | .returnStmt _, h => by simp [isLvalueTree] at h
  | .unary _ _, h => by simp [isLvalueTree] at h
  | .binary _ _ _, h => by simp [isLvalueTree] at h
  | .constNode _, h => by simp [isLvalueTree] at h
  | .postfixNode _ _, h => by simp [isLvalueTree] at h
  | .assignment _ _, h => by simp [isLvalueTree] at h
  | .condition _ _ _ _, h => by simp [isLvalueTree] at h
  | .whileNode _ _ _ _, h => by simp [isLvalueTree] at h
  | .breakNode _, h => by simp [isLvalueTree] at h
  | .continueNode _ _, h => by simp [isLvalueTree] at h
  | .forNode _ _ _ _ _, h => by simp [isLvalueTree] at h

/-- Lvalue trees pass the `dynamic_cast<LvalueNode*>` test. -/
theorem isLvalue_of_tree (x : AST) (hx : isLvalueTree x = true) : isLvalue x = true := by
  cases x <;> simp_all [isLvalueTree, isLvalue]

/-- Claim C7, counterexample: `x -= 1 - 1` and `x = x - 1 - 1` both parse, but
to different ASTs — the compound form parses the right side at precedence 1,
yielding `x = x - (1 - 1)`, while the plain form yields `x = (x - 1) - 1`. -/
theorem c7_counterexample :
    (parsedStmtEncode "x -= 1 - 1;").isSome = true ∧
    (parsedStmtEncode "x = x - 1 - 1;").isSome = true ∧
    parsedStmtEncode "x -= 1 - 1;" ≠ parsedStmtEncode "x = x - 1 - 1;" :=
  ⟨rfl, rfl, by decide⟩

/-- Claim C7, amended: in the precedence-climbing loop, an lvalue `x` followed
by `OP =` parses as `x = x OP (E)` — an AssignmentNode whose target is the
structural clone of `x` (equal to `x` as a tree, built as a separate node by
`clone`) and whose right side applies OP to the original `x` and the whole of E
parsed at assignment precedence.  E is an arbitrary following expression
(hypothesis hE), after which the loop stops (hypothesis hs2). -/
theorem c7_amended (fuel : Nat) (minPrec : Int) (x e : AST) (sym s2 : Symbol)
    (st st2 : PSt) (ts rest2 : List Token)
    (hx : isLvalueTree x = true)
    (hbin : isBinaryOp sym = true)
    (hprec : getPrecedence sym ≥ minPrec)
    (hne : sym ≠ .EQUALS)
    (htoks : st.toks = .symbol sym :: .symbol .EQUALS :: ts)
    (hE : parseBinaryOp (fuel + 1) 1 { toks := ts, loopLabelCount := st.loopLabelCount } =
      .ok (e, st2))
    (hstop : st2.toks = .symbol s2 :: rest2)
    (hs2 : (isBinaryOp s2 && decide (getPrecedence s2 ≥ minPrec)) = false) :
    parseBinLoop (fuel + 2) minPrec x st =
      .ok (.assignment x (.binary (symToBinaryOperator sym) x e), st2) := by
  have hclone : clone x = some x := cloneLv_self x hx
  have hlv : isLvalue x = true := isLvalue_of_tree x hx
  have hgp : getPrecedence Symbol.EQUALS = 1 := rfl
  have hs2n : ¬(isBinaryOp s2 = true ∧ getPrecedence s2 ≥ minPrec) := by
    rintro ⟨h1, h2⟩
    simp [h1, h2] at hs2
  simp only [show fuel + 2 = (fuel + 1) + 1 from rfl, parseBinLoop, htoks, hbin, hprec,
    hlv, hclone, hne, advanceTok, hgp, List.tail_cons, hE, Bind.bind, Except.bind,
    hstop, decide_eq_true_eq, Bool.true_and, Bool.and_eq_true, if_true, if_false]
  rw [if_neg hs2n]

/-- Witness for the amended C7: `x -= 1` inside `x -= 1 ;` parses to
`x = x - (1)` with the cloned variable as target. -/
theorem c7_amended_witness :
    parseBinLoop 6 0 (.var "x")
      { toks := [.symbol .MINUS, .symbol .EQUALS, .number 1, .symbol .SEMICOLON],
        loopLabelCount := 0 } =
      .ok (.assignment (.var "x") (.binary .SUBTRACT (.var "x") (.constNode 1)),
           { toks := [.symbol .SEMICOLON], loopLabelCount := 0 }) :=
  c7_amended 4 0 (.var "x") (.constNode 1) .MINUS .SEMICOLON
    { toks := [.symbol .MINUS, .symbol .EQUALS, .number 1, .symbol .SEMICOLON],
      loopLabelCount := 0 }
    { toks := [.symbol .SEMICOLON], loopLabelCount := 0 }
    [.number 1, .symbol .SEMICOLON] []
    (by decide) (by decide) (by decide) (by decide) rfl (by rfl) rfl (by decide)

set_option maxHeartbeats 2000000 in
/-- Claim C8, code evaluation: two pipeline instances whose uninitialized
`loopLabelCount` members start at 0 and 1 both compile the same loop program
successfully but produce different assembly text (the loop labels embed the
counter: `.main0_start.loop` versus `.main1_start.loop`). -/
theorem c8_code_eval :
    (compileSource c8src 0).isOk = true ∧ (compileSource c8src 1).isOk = true ∧
    compileSource c8src 0 ≠ compileSource c8src 1 := by
  refine ⟨by rfl, by rfl, fun h => ?_⟩
  have h2 : (compileSource c8src 0).toOption = (compileSource c8src 1).toOption :=
    congrArg Except.toOption h
  exact absurd h2 (by decide)

theorem StOK_mono {t : TSt} {b b' : Nat} (h : StOK t b) (hb : b ≤ b') : StOK t b' := by
  obtain ⟨h1, h2, h3⟩ := h
  refine ⟨fun i hi q hq => ?_, fun pr hpr => ?_, fun o ho q hq => ?_⟩
  · obtain ⟨ha, hc⟩ := h1 i hi q hq
    exact ⟨ha, lt_of_lt_of_le hc hb⟩
  · obtain ⟨ha, hc⟩ := h2 pr hpr
    exact ⟨ha, lt_of_lt_of_le hc hb⟩
  · obtain ⟨ha, hc⟩ := h3 o ho q hq
    exact ⟨ha, lt_of_lt_of_le hc hb⟩

theorem StOK_emit {t : TSt} {b : Nat} {i : TAC} (h : StOK t b)
    (hi : ∀ q ∈ tacPositions i, 1 ≤ q ∧ q < b) : StOK (emit i t) b := by
  obtain ⟨h1, h2, h3⟩ := h
  refine ⟨fun j hj q hq => ?_, h2, h3⟩
  simp only [emit, List.mem_append, List.mem_singleton] at hj
  rcases hj with hj | rfl
  · exact h1 j hj q hq
  · exact hi q hq

theorem StOK_result {t : TSt} {b : Nat} {o : Operand} (h : StOK t b)
    (ho : ∀ q ∈ opPositions o, 1 ≤ q ∧ q < b) : StOK { t with result := some o } b := by
  obtain ⟨h1, h2, h3⟩ := h
  refine ⟨h1, h2, fun o2 ho2 q hq => ?_⟩
  simp only [Option.some.injEq] at ho2
  subst ho2
  exact ho q hq

theorem StOK_resultNone {t : TSt} {b : Nat} (h : StOK t b) :
    StOK { t with result := none } b := by
  obtain ⟨h1, h2, h3⟩ := h
  exact ⟨h1, h2, fun o2 ho2 => by simp at ho2⟩

theorem vmOK_set {m : List (String × PseudoRegister)} {b : Nat} {k : String}
    {v : PseudoRegister} (h : vmOK m b) (hv : 1 ≤ v.position ∧ v.position < b) :
    vmOK (fbSet m k v) b := by
  induction m with
  | nil =>
    intro pr hpr
    simp only [fbSet, List.mem_singleton] at hpr
    subst hpr; exact hv
  | cons p rest ih =>
    intro pr hpr
    simp only [fbSet] at hpr
    by_cases hk : p.1 == k
    · simp [hk] at hpr
      rcases hpr with rfl | hpr
      · exact hv
      · exact h pr (List.mem_cons_of_mem _ hpr)
    · simp [hk] at hpr
      rcases hpr with rfl | hpr
      · exact h pr (List.mem_cons_self _ _)
      · exact ih (fun pr2 hpr2 => h pr2 (List.mem_cons_of_mem _ hpr2)) pr hpr

theorem fbFind_bound {m : List (String × PseudoRegister)} {k : String}
    {r : PseudoRegister} {b : Nat} (h : vmOK m b) (hf : fbFind m k = some r) :
    1 ≤ r.position ∧ r.position < b := by
  unfold fbFind at hf
  cases hm : List.find? (fun p => p.1 == k) m with
  | none => simp [hm] at hf
  | some p =>
    simp [hm] at hf
    have := List.mem_of_find?_eq_some hm
    subst hf
    exact h p this

theorem step_trans {t t1 t2 : TSt} (h1 : Step t t1) (h2 : Step t1 t2) : Step t t2 := by
  intro h0
  obtain ⟨ha, hb, hc⟩ := h1 h0
  obtain ⟨hd, he, hf⟩ := h2 ha
  exact ⟨hd, le_trans hb he, fun k hk => hf k (hc k hk)⟩

theorem except_bind_ok {α β ε : Type} {x : Except ε α} {f : α → Except ε β} {b : β} :
    (x >>= f) = .ok b ↔ ∃ a, x = .ok a ∧ f a = .ok b := by
  cases x <;> simp [Bind.bind, Except.bind]

theorem except_pure_ok {α ε : Type} {x : α} {b : α} :
    (pure x : Except ε α) = .ok b ↔ x = b := by
  simp [pure, Except.pure]

theorem getResult_ok {t : TSt} {o : Operand} : getResult t = .ok o ↔ t.result = some o := by
  unfold getResult
  cases hro : t.result <;> simp

theorem step_emit_free {t : TSt} {i : TAC} (hi : tacPositions i = []) :
    Step t (emit i t) := by
  intro h0
  refine ⟨h0, le_refl _, fun k hk => StOK_emit hk ?_⟩
  simp [hi]

theorem step_emit_res {t : TSt} {i : TAC}
    (hi : 1 ≤ vcOf t → ∀ k, StOK t (vcOf t + k) →
      ∀ q ∈ tacPositions i, 1 ≤ q ∧ q < vcOf t + k) :
    Step t (emit i t) := by
  intro h0
  exact ⟨h0, le_refl _, fun k hk => StOK_emit hk (hi h0 k hk)⟩

theorem step_emit_dest_bump {t : TSt} {i : TAC}
    (hi : 1 ≤ vcOf t → ∀ k, StOK t (vcOf t + k) →
      ∀ q ∈ tacPositions i, 1 ≤ q ∧ q < vcOf t + 1 + k) :
    Step t (bumpVC (emit i t)) := by
  intro h0
  refine ⟨le_trans h0 (Nat.le_succ _), Nat.le_succ _, fun k hk => ?_⟩
  have hk2 : StOK t (vcOf t + 1 + k) := StOK_mono hk (by omega)
  have he : StOK (emit i t) (vcOf t + 1 + k) := StOK_emit hk2 (hi h0 k hk)
  have hv : vcOf (bumpVC (emit i t)) + k = vcOf t + 1 + k := by
    simp [vcOf, bumpVC, emit]
  rw [hv]
  exact he

theorem step_bump {t : TSt} : Step t (bumpVC t) := by
  intro h0
  refine ⟨le_trans h0 (Nat.le_succ _), Nat.le_succ _, fun k hk => ?_⟩
  have hv : vcOf (bumpVC t) + k = vcOf t + (k + 1) := by
    simp [vcOf, bumpVC]; omega
  rw [hv]
  exact StOK_mono hk (by omega)

theorem step_setRes {t : TSt} {o : Operand}
    (ho : 1 ≤ vcOf t → ∀ k, StOK t (vcOf t + k) →
      ∀ q ∈ opPositions o, 1 ≤ q ∧ q < vcOf t + k) :
    Step t { t with result := some o } := by
  intro h0
  exact ⟨h0, le_refl _, fun k hk => StOK_result hk (ho h0 k hk)⟩

theorem step_setResNone {t : TSt} : Step t { t with result := none } := by
  intro h0
  exact ⟨h0, le_refl _, fun k hk => StOK_resultNone hk⟩

theorem step_refl {t : TSt} : Step t t := by
  intro h0
  exact ⟨h0, le_refl _, fun k hk => hk⟩

theorem step_relabel {t : TSt} {lc : Nat} :
    Step t { t with body := { t.body with labelCount := lc } } := by
  intro h0
  exact ⟨h0, le_refl _, fun k hk => hk⟩

theorem step_emit_res_of {t : TSt} {i : TAC} {o : Operand}
    (hres : t.result = some o) (hj : tacPositions i = opPositions o) :
    Step t (emit i t) :=
  step_emit_res (fun _ k hk q hq => hk.2.2 o hres q (by rw [hj] at hq; exact hq))

theorem step_and_tail {t : TSt} {o : Operand} {j : TAC} {s1 s2 : String} {a b : Nat}
    (hres : t.result = some o) (hj : tacPositions j = opPositions o) :
    Step t { bumpVC (emit (.labelIns s2)
      (emit (.storeValue ⟨(emit j t).body.name, (emit j t).body.variableCount⟩ (.num a))
      (emit (.labelIns s1)
      (emit (.jump s2)
      (emit (.storeValue ⟨(emit j t).body.name, (emit j t).body.variableCount⟩ (.num b))
      (emit j t)))))) with result := some (.reg ⟨(emit j t).body.name,
        (emit j t).body.variableCount⟩) } := by
  intro h0
  have h0' : 1 ≤ t.body.variableCount := h0
  refine ⟨?_, ?_, fun k hk => ?_⟩
  · show 1 ≤ t.body.variableCount + 1
    omega
  · show t.body.variableCount ≤ t.body.variableCount + 1
    omega
  · have hoB : ∀ q ∈ opPositions o, 1 ≤ q ∧ q < t.body.variableCount + k := hk.2.2 o hres
    have h1 : StOK t (vcOf t + 1 + k) := StOK_mono hk (by omega)
    have hdest : ∀ q ∈ tacPositions (TAC.storeValue
        (⟨(emit j t).body.name, (emit j t).body.variableCount⟩ : PseudoRegister)
        (Operand.num a)), 1 ≤ q ∧ q < vcOf t + 1 + k := by
      intro q hq
      simp only [tacPositions, opPositions, List.mem_cons, List.not_mem_nil, or_false] at hq
      subst hq
      show 1 ≤ t.body.variableCount ∧ t.body.variableCount < t.body.variableCount + 1 + k
      omega
    have hdest' : ∀ q ∈ tacPositions (TAC.storeValue
        (⟨(emit j t).body.name, (emit j t).body.variableCount⟩ : PseudoRegister)
        (Operand.num b)), 1 ≤ q ∧ q < vcOf t + 1 + k := by
      intro q hq
      simp only [tacPositions, opPositions, List.mem_cons, List.not_mem_nil, or_false] at hq
      subst hq
      show 1 ≤ t.body.variableCount ∧ t.body.variableCount < t.body.variableCount + 1 + k
      omega
    have h2 : StOK (emit j t) (vcOf t + 1 + k) := StOK_emit h1 (by
      rw [hj]
      intro q hq
      have := hoB q hq
      show 1 ≤ q ∧ q < t.body.variableCount + 1 + k
      omega)
    have h3 := StOK_emit h2 hdest'
    have h4 : StOK (emit (.jump s2) (emit (TAC.storeValue
        ⟨(emit j t).body.name, (emit j t).body.variableCount⟩ (Operand.num b)) (emit j t)))
        (vcOf t + 1 + k) := StOK_emit h3 (by intro q hq; simp [tacPositions] at hq)
    have h5 : StOK (emit (.labelIns s1) (emit (.jump s2) (emit (TAC.storeValue
        ⟨(emit j t).body.name, (emit j t).body.variableCount⟩ (Operand.num b)) (emit j t))))
        (vcOf t + 1 + k) := StOK_emit h4 (by intro q hq; simp [tacPositions] at hq)
    have h6 := StOK_emit h5 hdest
    have h7 : StOK (emit (.labelIns s2) (emit (TAC.storeValue
        ⟨(emit j t).body.name, (emit j t).body.variableCount⟩ (Operand.num a))
        (emit (.labelIns s1) (emit (.jump s2) (emit (TAC.storeValue
        ⟨(emit j t).body.name, (emit j t).body.variableCount⟩ (Operand.num b))
        (emit j t)))))) (vcOf t + 1 + k) :=
      StOK_emit h6 (by intro q hq; simp [tacPositions] at hq)
    have h8 : StOK (bumpVC (emit (.labelIns s2) (emit (TAC.storeValue
        ⟨(emit j t).body.name, (emit j t).body.variableCount⟩ (Operand.num a))
        (emit (.labelIns s1) (emit (.jump s2) (emit (TAC.storeValue
        ⟨(emit j t).body.name, (emit j t).body.variableCount⟩ (Operand.num b))
        (emit j t))))))) (vcOf t + 1 + k) := h7
    exact StOK_result h8 (by
      intro q hq
      simp only [opPositions, List.mem_cons, List.not_mem_nil, or_false] at hq
      subst hq
      show 1 ≤ t.body.variableCount ∧ t.body.variableCount < t.body.variableCount + 1 + k
      omega)

theorem StOK_bump {t : TSt} {b : Nat} (h : StOK t b) : StOK (bumpVC t) b := h

theorem step_cond_tail {t1 t4 t7 : TSt} {cond r1 r2 : Operand} {sElse sEnd : String}
    (hcond : t1.result = some cond)
    (h4 : Step (emit (.jumpIfZero cond sElse)
      (bumpVC { t1 with body := { t1.body with labelCount := t1.body.labelCount + 2 } })) t4)
    (hr1 : t4.result = some r1)
    (h7 : Step (emit (.labelIns sElse) (emit (.jump sEnd)
      (emit (.storeValue ⟨t1.body.name, t1.body.variableCount⟩ r1) t4))) t7)
    (hr2 : t7.result = some r2) :
    Step t1 { emit (.labelIns sEnd)
      (emit (.storeValue ⟨t1.body.name, t1.body.variableCount⟩ r2) t7) with
      result := some (.reg ⟨t1.body.name, t1.body.variableCount⟩) } := by
  intro h0
  have h0' : 1 ≤ t1.body.variableCount := h0
  obtain ⟨h04, hle4, hK4⟩ := h4 (by show (1:Nat) ≤ t1.body.variableCount + 1; omega)
  have e4 : t1.body.variableCount + 1 ≤ vcOf t4 := hle4
  obtain ⟨h07, hle7, hK7⟩ := h7 h04
  have e7 : vcOf t4 ≤ vcOf t7 := hle7
  refine ⟨?_, ?_, fun k hk => ?_⟩
  · exact h07
  · show t1.body.variableCount ≤ vcOf t7
    omega
  · have hcondB : ∀ q ∈ opPositions cond, 1 ≤ q ∧ q < t1.body.variableCount + k :=
      hk.2.2 cond hcond
    have hk3 : StOK (emit (.jumpIfZero cond sElse)
        (bumpVC { t1 with body := { t1.body with labelCount := t1.body.labelCount + 2 } }))
        (t1.body.variableCount + 1 + k) := by
      refine StOK_emit ?_ ?_
      · exact StOK_mono hk
          (by show t1.body.variableCount + k ≤ t1.body.variableCount + 1 + k; omega)
      · intro q hq
        simp only [tacPositions] at hq
        have h2 := hcondB q hq
        exact ⟨h2.1, by omega⟩
    have hk4 : StOK t4 (vcOf t4 + k) := hK4 k hk3
    have hr1B : ∀ q ∈ opPositions r1, 1 ≤ q ∧ q < vcOf t4 + k := hk4.2.2 r1 hr1
    have hk6 : StOK (emit (.labelIns sElse) (emit (.jump sEnd)
        (emit (.storeValue ⟨t1.body.name, t1.body.variableCount⟩ r1) t4))) (vcOf t4 + k) := by
      refine StOK_emit (StOK_emit (StOK_emit hk4 ?_) ?_) ?_
      · intro q hq
        simp only [tacPositions, List.mem_cons] at hq
        rcases hq with rfl | hq
        · refine ⟨h0', ?_⟩
          show t1.body.variableCount < vcOf t4 + k
          omega
        · exact hr1B q hq
      · intro q hq
        simp [tacPositions] at hq
      · intro q hq
        simp [tacPositions] at hq
    have hk7 : StOK t7 (vcOf t7 + k) := hK7 k hk6
    have hr2B : ∀ q ∈ opPositions r2, 1 ≤ q ∧ q < vcOf t7 + k := hk7.2.2 r2 hr2
    refine StOK_result (StOK_emit (StOK_emit hk7 ?_) ?_) ?_
    · intro q hq
      simp only [tacPositions, List.mem_cons] at hq
      rcases hq with rfl | hq
      · refine ⟨h0', ?_⟩
        show t1.body.variableCount < vcOf t7 + k
        omega
      · have h2 := hr2B q hq
        refine ⟨h2.1, ?_⟩
        show q < vcOf t7 + k
        exact h2.2
    · intro q hq
      simp [tacPositions] at hq
    · intro q hq
      simp only [opPositions, List.mem_cons, List.not_mem_nil, or_false] at hq
      subst hq
      refine ⟨h0', ?_⟩
      show t1.body.variableCount < vcOf t7 + k
      omega

theorem tacBound : ∀ fuel : Nat,
    (∀ a t t', tacNode fuel a t = .ok t' → Step t t') ∧
    (∀ o t t', tacOpt fuel o t = .ok t' → Step t t') ∧
    (∀ o t t', tacOptMandatory fuel o t = .ok t' → Step t t') ∧
    (∀ l t t', tacList fuel l t = .ok t' → Step t t') := by
  intro fuel
  induction fuel with
  | zero =>
    refine ⟨?_, ?_, ?_, ?_⟩ <;> intro a t t' h <;>
      simp [tacNode, tacOpt, tacOptMandatory, tacList] at h
  | succ fuel ih =>
    obtain ⟨ihN, ihO, ihM, ihL⟩ := ih
    refine ⟨?_, ?_, ?_, ?_⟩
    · intro a t t' h
      cases a with
      | program f => simp [tacNode] at h
      | constNode n =>
        simp only [tacNode, Except.ok.injEq] at h
        subst h
        exact step_setRes (fun h0 k hk q hq => by simp [opPositions] at hq)
      | var id =>
        simp only [tacNode] at h
        cases hf : fbFind t.body.varMap id with
        | none => simp [hf] at h
        | some r =>
          simp only [hf, Except.ok.injEq] at h
          subst h
          refine step_setRes (fun h0 k hk q hq => ?_)
          simp only [opPositions, List.mem_cons, List.not_mem_nil, or_false] at hq
          subst hq
          have := fbFind_bound hk.2.1 hf
          omega
      | functionDefinition id body =>
        simp only [tacNode] at h
        have s1 : Step t (emit (TAC.functionIns t.body.name) t) :=
          step_emit_free (by simp [tacPositions])
        have s2 : Step (emit (TAC.functionIns t.body.name) t)
            (emit .allocateStack (emit (TAC.functionIns t.body.name) t)) :=
          step_emit_free (by simp [tacPositions])
        exact step_trans s1 (step_trans s2 (ihN _ _ _ h))
      | returnStmt e =>
        cases e with
        | none =>
          simp only [tacNode, except_bind_ok, except_pure_ok, Except.ok.injEq] at h
          obtain ⟨t1, rfl, rfl⟩ := h
          exact step_trans (step_emit_free (by simp [tacPositions])) step_setResNone
        | some ex =>
          simp only [tacNode, except_bind_ok, except_pure_ok, Except.ok.injEq] at h
          obtain ⟨t1, hvis, a, rfl, rfl⟩ := h
          refine step_trans (ihN _ _ _ hvis) (step_trans ?_ step_setResNone)
          refine step_emit_res ?_
          intro h0 k hk q hq
          cases hres2 : t1.result with
          | none =>
            rw [hres2] at hq
            simp [tacPositions] at hq
          | some o2 =>
            rw [hres2] at hq
            simp only [tacPositions] at hq
            exact hk.2.2 o2 hres2 q hq
      | unary op e =>
        by_cases hop : op = UnaryOperator.UNARY_ADD
        · simp only [tacNode, hop, if_true, except_bind_ok, Except.ok.injEq] at h
          obtain ⟨t1, hvis, rfl⟩ := h
          exact ihN _ _ _ hvis
        · simp only [tacNode, if_neg hop, except_bind_ok, except_pure_ok,
            Except.ok.injEq] at h
          obtain ⟨t1, hvis, o, hgr, rfl⟩ := h
          have hro := getResult_ok.mp hgr
          refine step_trans (ihN _ _ _ hvis) ?_
          intro h01
          have h01' : 1 ≤ t1.body.variableCount := h01
          refine ⟨?_, ?_, fun k hk => ?_⟩
          · show (1:Nat) ≤ t1.body.variableCount + 1
            omega
          · show t1.body.variableCount ≤ t1.body.variableCount + 1
            omega
          · have hoB : ∀ q ∈ opPositions o, 1 ≤ q ∧ q < t1.body.variableCount + k :=
              hk.2.2 o hro
            refine StOK_result (StOK_bump (StOK_emit (StOK_mono hk ?_) ?_)) ?_
            · show t1.body.variableCount + k ≤ t1.body.variableCount + 1 + k
              omega
            · intro q hq
              simp only [tacPositions, List.mem_cons] at hq
              rcases hq with rfl | hq
              · refine ⟨h01', ?_⟩
                show t1.body.variableCount < t1.body.variableCount + 1 + k
                omega
              · have h2 := hoB q hq
                refine ⟨h2.1, ?_⟩
                show q < t1.body.variableCount + 1 + k
                omega
            · intro q hq
              simp only [opPositions, List.mem_cons, List.not_mem_nil, or_false] at hq
              subst hq
              refine ⟨h01', ?_⟩
              show t1.body.variableCount < t1.body.variableCount + 1 + k
              omega
      | declaration id e =>
        cases e with
        | none =>
          simp only [tacNode, except_bind_ok, except_pure_ok, Except.ok.injEq] at h
          obtain ⟨t2, rfl, rfl⟩ := h
          intro h0
          have h0' : 1 ≤ t.body.variableCount := h0
          refine ⟨?_, ?_, fun k hk => ?_⟩
          · show (1:Nat) ≤ t.body.variableCount + 1
            omega
          · show t.body.variableCount ≤ t.body.variableCount + 1
            omega
          · have hk' : StOK t (t.body.variableCount + k) := hk
            obtain ⟨i1, v1, r1⟩ := hk'
            refine ⟨?_, ?_, ?_⟩
            · intro i hi q hq
              have h2 := i1 i hi q hq
              refine ⟨h2.1, ?_⟩
              show q < t.body.variableCount + 1 + k
              omega
            · refine vmOK_set (fun pr hpr => ?_) ?_
              · have h2 := v1 pr hpr
                refine ⟨h2.1, ?_⟩
                show pr.2.position < t.body.variableCount + 1 + k
                omega
              · refine ⟨h0', ?_⟩
                show t.body.variableCount < t.body.variableCount + 1 + k
                omega
            · intro o2 ho2 q hq
              have h2 := r1 o2 ho2 q hq
              refine ⟨h2.1, ?_⟩
              show q < t.body.variableCount + 1 + k
              omega
        | some ex =>
          simp only [tacNode, except_bind_ok, except_pure_ok, Except.ok.injEq] at h
          obtain ⟨t3, hvis, r, hgr, a2, rfl, rfl⟩ := h
          have hro := getResult_ok.mp hgr
          intro h0
          have h0' : 1 ≤ t.body.variableCount := h0
          obtain ⟨h02, hle, hK⟩ := ihN _ _ _ hvis h0
          have hle' : t.body.variableCount ≤ vcOf t3 := hle
          refine ⟨?_, ?_, fun k hk => ?_⟩
          · show (1:Nat) ≤ vcOf t3 + 1
            omega
          · show t.body.variableCount ≤ vcOf t3 + 1
            omega
          · have hk' : StOK t (t.body.variableCount + k) := hk
            have hk1 : StOK { t with body := { t.body with
                varMap := fbSet t.body.varMap id ⟨t.body.name, t.body.variableCount⟩ } }
                (t.body.variableCount + max 1 k) := by
              obtain ⟨i1, v1, r1⟩ := hk'
              refine ⟨?_, ?_, ?_⟩
              · intro i hi q hq
                have h2 := i1 i hi q hq
                exact ⟨h2.1, by omega⟩
              · refine vmOK_set (fun pr hpr => ?_) ?_
                · have h2 := v1 pr hpr
                  exact ⟨h2.1, by omega⟩
                · refine ⟨h0', ?_⟩
                  show t.body.variableCount < t.body.variableCount + max 1 k
                  omega
              · intro o2 ho2 q hq
                have h2 := r1 o2 ho2 q hq
                exact ⟨h2.1, by omega⟩
            have hk3 : StOK t3 (vcOf t3 + max 1 k) := hK (max 1 k) hk1
            have hrB : ∀ q ∈ opPositions r, 1 ≤ q ∧ q < vcOf t3 + max 1 k := hk3.2.2 r hro
            refine StOK_bump (StOK_emit (StOK_mono hk3 ?_) ?_)
            · show vcOf t3 + max 1 k ≤ vcOf t3 + 1 + k
              omega
            · intro q hq
              simp only [tacPositions, List.mem_cons] at hq
              rcases hq with rfl | hq
              · refine ⟨h0', ?_⟩
                show t.body.variableCount < vcOf t3 + 1 + k
                omega
              · have h2 := hrB q hq
                refine ⟨h2.1, ?_⟩
                show q < vcOf t3 + 1 + k
                omega
      | assignment l r =>
        simp only [tacNode, except_bind_ok, except_pure_ok, Except.ok.injEq] at h
        obtain ⟨t1, hrv, src, hgr, t2, hlv, h⟩ := h
        have hsrc := getResult_ok.mp hgr
        cases hres : t2.result with
        | none =>
          rw [hres] at h
          simp at h
        | some o =>
          cases o with
          | num n =>
            rw [hres] at h
            simp at h
          | reg v =>
            rw [hres] at h
            simp only [Except.ok.injEq] at h
            subst h
            intro h0
            obtain ⟨h01, hle1, hK1⟩ := ihN _ _ _ hrv h0
            obtain ⟨h02, hle2, hK2⟩ := ihN _ _ _ hlv h01
            have e1 : vcOf t ≤ vcOf t1 := hle1
            have e2 : vcOf t1 ≤ vcOf t2 := hle2
            refine ⟨?_, ?_, fun k hk => ?_⟩
            · exact h02
            · show vcOf t ≤ vcOf t2
              omega
            · have hk1 := hK1 k hk
              have hsrcB : ∀ q ∈ opPositions src, 1 ≤ q ∧ q < vcOf t1 + k :=
                hk1.2.2 src hsrc
              have hk2 := hK2 k hk1
              have hvB : 1 ≤ v.position ∧ v.position < vcOf t2 + k :=
                hk2.2.2 (.reg v) hres v.position (by simp [opPositions])
              refine StOK_emit hk2 ?_
              intro q hq
              simp only [tacPositions, List.mem_cons] at hq
              rcases hq with rfl | hq
              · refine ⟨hvB.1, ?_⟩
                show v.position < vcOf t2 + k
                exact hvB.2
              · have h2 := hsrcB q hq
                refine ⟨h2.1, ?_⟩
                show q < vcOf t2 + k
                omega
      | binary op l r =>
        by_cases hand : op = BinaryOperator.LOGICAL_AND
        · subst hand
          simp only [tacNode] at h
          rw [if_pos trivial] at h
          simp only [except_bind_ok, except_pure_ok, Except.ok.injEq] at h
          obtain ⟨t1, hl, lop, hlop, t3, hr, rop, hrop, rfl⟩ := h
          have sjz : Step t1 (emit (.jumpIfZero lop
              ("." ++ t.body.name ++ toString (t.body.labelCount + 1) ++ "_false")) t1) :=
            step_emit_res_of (getResult_ok.mp hlop) rfl
          exact step_trans step_relabel (step_trans (ihN _ _ _ hl)
            (step_trans sjz (step_trans (ihN _ _ _ hr)
              (step_and_tail (getResult_ok.mp hrop) rfl))))
        · by_cases hor : op = BinaryOperator.LOGICAL_OR
          · subst hor
            simp only [tacNode] at h
            rw [if_neg hand, if_pos trivial] at h
            simp only [except_bind_ok, except_pure_ok, Except.ok.injEq] at h
            obtain ⟨t1, hl, lop, hlop, t3, hr, rop, hrop, rfl⟩ := h
            have sjz : Step t1 (emit (.jumpIfNotZero lop
                ("." ++ t.body.name ++ toString (t.body.labelCount + 1) ++ "_true")) t1) :=
              step_emit_res_of (getResult_ok.mp hlop) rfl
            exact step_trans step_relabel (step_trans (ihN _ _ _ hl)
              (step_trans sjz (step_trans (ihN _ _ _ hr)
                (step_and_tail (getResult_ok.mp hrop) rfl))))
          · simp only [tacNode] at h
            rw [if_neg hand, if_neg hor] at h
            simp only [except_bind_ok, except_pure_ok, Except.ok.injEq] at h
            obtain ⟨t1, hl, lop, hlop, t2, hr, rop, hrop, rfl⟩ := h
            have hlop' := getResult_ok.mp hlop
            have hrop' := getResult_ok.mp hrop
            intro h0
            obtain ⟨h01, hle1, hK1⟩ := ihN _ _ _ hl h0
            obtain ⟨h02, hle2, hK2⟩ := ihN _ _ _ hr h01
            have e1 : vcOf t ≤ vcOf t1 := hle1
            have e2 : vcOf t1 ≤ vcOf t2 := hle2
            have h02' : 1 ≤ vcOf t2 := h02
            refine ⟨?_, ?_, fun k hk => ?_⟩
            · show (1:Nat) ≤ vcOf t2 + 1
              omega
            · show vcOf t ≤ vcOf t2 + 1
              omega
            · have hk1 := hK1 k hk
              have hlopB : ∀ q ∈ opPositions lop, 1 ≤ q ∧ q < vcOf t1 + k :=
                hk1.2.2 lop hlop'
              have hk2 := hK2 k hk1
              have hropB : ∀ q ∈ opPositions rop, 1 ≤ q ∧ q < vcOf t2 + k :=
                hk2.2.2 rop hrop'
              refine StOK_result (StOK_bump (StOK_emit (StOK_mono hk2 ?_) ?_)) ?_
              · show vcOf t2 + k ≤ vcOf t2 + 1 + k
                omega
              · intro q hq
                simp only [tacPositions, List.mem_cons, List.mem_append] at hq
                rcases hq with rfl | hq | hq
                · refine ⟨h02', ?_⟩
                  show vcOf t2 < vcOf t2 + 1 + k
                  omega
                · have h2 := hlopB q hq
                  refine ⟨h2.1, ?_⟩
                  show q < vcOf t2 + 1 + k
                  omega
                · have h2 := hropB q hq
                  refine ⟨h2.1, ?_⟩
                  show q < vcOf t2 + 1 + k
                  omega
              · intro q hq
                simp only [opPositions, List.mem_cons, List.not_mem_nil, or_false] at hq
                subst hq
                refine ⟨h02', ?_⟩
                show vcOf t2 < vcOf t2 + 1 + k
                omega
      | postfixNode v op =>
        simp only [tacNode, except_bind_ok, except_pure_ok, Except.ok.injEq] at h
        obtain ⟨t1, hvis, vr, hgr, h⟩ := h
        have hro := getResult_ok.mp hgr
        cases vr with
        | num n => simp at h
        | reg vreg =>
          simp only [Except.ok.injEq] at h
          subst h
          refine step_trans (ihN _ _ _ hvis) ?_
          intro h01
          have h01' : 1 ≤ t1.body.variableCount := h01
          refine ⟨?_, ?_, fun k hk => ?_⟩
          · show (1:Nat) ≤ t1.body.variableCount + 1 + 1
            omega
          · show t1.body.variableCount ≤ t1.body.variableCount + 1 + 1
            omega
          · have hvB : 1 ≤ vreg.position ∧ vreg.position < t1.body.variableCount + k :=
              hk.2.2 (.reg vreg) hro vreg.position (by simp [opPositions])
            refine StOK_result (StOK_emit (StOK_bump (StOK_emit (StOK_bump
              (StOK_emit (StOK_mono hk ?_) ?_)) ?_)) ?_) ?_
            · show t1.body.variableCount + k ≤ t1.body.variableCount + 1 + 1 + k
              omega
            · intro q hq
              simp only [tacPositions, opPositions, List.mem_cons, List.not_mem_nil,
                or_false] at hq
              rcases hq with rfl | rfl
              · refine ⟨h01', ?_⟩
                show t1.body.variableCount < t1.body.variableCount + 1 + 1 + k
                omega
              · refine ⟨hvB.1, ?_⟩
                show vreg.position < t1.body.variableCount + 1 + 1 + k
                omega
            · intro q hq
              simp only [tacPositions, opPositions, List.mem_cons, List.mem_append,
                List.not_mem_nil, or_false, bumpVC, emit] at hq
              rcases hq with rfl | rfl
              · constructor
                · show (1:Nat) ≤ t1.body.variableCount + 1
                  omega
                · show t1.body.variableCount + 1 < t1.body.variableCount + 1 + 1 + k
                  omega
              · refine ⟨hvB.1, ?_⟩
                show vreg.position < t1.body.variableCount + 1 + 1 + k
                omega
            · intro q hq
              simp only [tacPositions, opPositions, List.mem_cons, List.not_mem_nil,
                or_false, bumpVC, emit] at hq
              rcases hq with rfl | rfl
              · refine ⟨hvB.1, ?_⟩
                show vreg.position < t1.body.variableCount + 1 + 1 + k
                omega
              · constructor
                · show (1:Nat) ≤ t1.body.variableCount + 1
                  omega
                · show t1.body.variableCount + 1 < t1.body.variableCount + 1 + 1 + k
                  omega
            · intro q hq
              simp only [opPositions, List.mem_cons, List.not_mem_nil, or_false] at hq
              subst hq
              refine ⟨h01', ?_⟩
              show t1.body.variableCount < t1.body.variableCount + 1 + 1 + k
              omega
      | prefixNode v op =>
        simp only [tacNode, except_bind_ok, except_pure_ok, Except.ok.injEq] at h
        obtain ⟨t1, hvis, vr, hgr, h⟩ := h
        have hro := getResult_ok.mp hgr
        cases vr with
        | num n => simp at h
        | reg vreg =>
          simp only [Except.ok.injEq] at h
          subst h
          refine step_trans (ihN _ _ _ hvis) (step_trans (step_emit_res ?_) step_bump)
          intro h01 k hk q hq
          have hvB := hk.2.2 (.reg vreg) hro vreg.position (by simp [opPositions])
          simp only [tacPositions, opPositions, List.mem_cons, List.mem_append,
            List.not_mem_nil, or_false] at hq
          rcases hq with rfl | rfl
          · exact hvB
          · exact hvB
      | condition c tB eB isTernary =>
        cases isTernary with
        | true =>
          simp only [tacNode] at h
          rw [if_pos trivial] at h
          simp only [except_bind_ok, except_pure_ok, Except.ok.injEq] at h
          obtain ⟨t1, hc, cond, hcond, t4, htB, r1, hr1, t7, heB, r2, hr2, rfl⟩ := h
          exact step_trans (ihN _ _ _ hc)
            (step_cond_tail (getResult_ok.mp hcond) (ihM _ _ _ htB) (getResult_ok.mp hr1)
              (ihM _ _ _ heB) (getResult_ok.mp hr2))
        | false =>
          simp only [tacNode] at h
          rw [if_neg Bool.false_ne_true] at h
          cases eB with
          | none =>
            simp only [except_bind_ok, except_pure_ok, Except.ok.injEq] at h
            obtain ⟨t1, hc, cond, hcond, t4, htB, rfl⟩ := h
            have hres2 : ({ t1 with body := { t1.body with
                labelCount := t1.body.labelCount + 1 } } : TSt).result = some cond :=
              getResult_ok.mp hcond
            have sjz : Step ({ t1 with body := { t1.body with
                labelCount := t1.body.labelCount + 1 } } : TSt)
                (emit (.jumpIfZero cond
                  ("." ++ t1.body.name ++ toString (t1.body.labelCount + 1) ++ "_end"))
                  { t1 with body := { t1.body with
                    labelCount := t1.body.labelCount + 1 } }) :=
              step_emit_res_of hres2 rfl
            exact step_trans (ihN _ _ _ hc) (step_trans step_relabel
              (step_trans sjz (step_trans (ihM _ _ _ htB)
                (step_trans (step_emit_free (by simp [tacPositions])) step_setResNone))))
          | some eb =>
            simp only [except_bind_ok, except_pure_ok, Except.ok.injEq] at h
            obtain ⟨t1, hc, cond, hcond, t4, htB, t6, heb, rfl⟩ := h
            have hres2 : ({ t1 with body := { t1.body with
                labelCount := t1.body.labelCount + 2 } } : TSt).result = some cond :=
              getResult_ok.mp hcond
            have sjz : Step ({ t1 with body := { t1.body with
                labelCount := t1.body.labelCount + 2 } } : TSt)
                (emit (.jumpIfZero cond
                  ("." ++ t1.body.name ++ toString (t1.body.labelCount + 1) ++ "_else"))
                  { t1 with body := { t1.body with
                    labelCount := t1.body.labelCount + 2 } }) :=
              step_emit_res_of hres2 rfl
            exact step_trans (ihN _ _ _ hc) (step_trans step_relabel
              (step_trans sjz
                (step_trans (ihM _ _ _ htB)
                  (step_trans (step_emit_free (by simp [tacPositions]))
                    (step_trans (step_emit_free (by simp [tacPositions]))
                      (step_trans (ihN _ _ _ heb)
                        (step_trans (step_emit_free (by simp [tacPositions]))
                          step_setResNone)))))))
      | block items =>
        simp only [tacNode] at h
        exact ihL _ _ _ h
      | whileNode c b lab d =>
        simp only [tacNode, except_bind_ok, except_pure_ok, Except.ok.injEq] at h
        obtain ⟨t2, hc, cond, hcond, t4, hb, rfl⟩ := h
        have sjz : Step t2 (emit (.jumpIfZero cond
            ("." ++ t.body.name ++ lab ++ "_end.loop")) t2) :=
          step_emit_res_of (getResult_ok.mp hcond) rfl
        exact step_trans (step_emit_free (by simp [tacPositions]))
          (step_trans (ihN _ _ _ hc)
            (step_trans sjz
              (step_trans (ihO _ _ _ hb)
                (step_trans (step_emit_free (by simp [tacPositions]))
                  (step_trans (step_emit_free (by simp [tacPositions]))
                    step_setResNone)))))
      | breakNode lab =>
        simp only [tacNode, Except.ok.injEq] at h
        subst h
        exact step_emit_free (by simp [tacPositions])
      | continueNode lab isFor =>
        cases isFor with
        | true =>
          simp only [tacNode] at h
          rw [if_pos trivial] at h
          simp only [Except.ok.injEq] at h
          subst h
          exact step_emit_free (by simp [tacPositions])
        | false =>
          simp only [tacNode] at h
          rw [if_neg Bool.false_ne_true] at h
          simp only [Except.ok.injEq] at h
          subst h
          exact step_emit_free (by simp [tacPositions])
      | forNode i c n b lab =>
        cases c with
        | none =>
          simp only [tacNode, except_bind_ok, except_pure_ok, Except.ok.injEq] at h
          obtain ⟨t1, hi, y, rfl, t4, hb, t6, hn, rfl⟩ := h
          exact step_trans (ihO _ _ _ hi)
            (step_trans (step_emit_free (by simp [tacPositions]))
              (step_trans (ihO _ _ _ hb)
                (step_trans (step_emit_free (by simp [tacPositions]))
                  (step_trans (ihO _ _ _ hn)
                    (step_trans (step_emit_free (by simp [tacPositions]))
                      (step_trans (step_emit_free (by simp [tacPositions]))
                        step_setResNone))))))
        | some ce =>
          simp only [tacNode, except_bind_ok, except_pure_ok, Except.ok.injEq] at h
          obtain ⟨t1, hi, tc, hcv, cond, hcond, a3, rfl, t4, hb, t6, hn, rfl⟩ := h
          have sjz : Step tc (emit (.jumpIfZero cond
              ("." ++ t.body.name ++ lab ++ "_end.loop")) tc) :=
            step_emit_res_of (getResult_ok.mp hcond) rfl
          exact step_trans (ihO _ _ _ hi)
            (step_trans (step_emit_free (by simp [tacPositions]))
              (step_trans (ihN _ _ _ hcv)
                (step_trans sjz
                  (step_trans (ihO _ _ _ hb)
                    (step_trans (step_emit_free (by simp [tacPositions]))
                      (step_trans (ihO _ _ _ hn)
                        (step_trans (step_emit_free (by simp [tacPositions]))
                          (step_trans (step_emit_free (by simp [tacPositions]))
                            step_setResNone))))))))
    · intro o t t' h
      cases o with
      | none =>
        simp only [tacOpt, Except.ok.injEq] at h
        subst h
        exact step_refl
      | some a =>
        simp only [tacOpt] at h
        exact ihN _ _ _ h
    · intro o t t' h
      cases o with
      | none => simp [tacOptMandatory] at h
      | some a =>
        simp only [tacOptMandatory] at h
        exact ihN _ _ _ h
    · intro l t t' h
      cases l with
      | nil =>
        simp only [tacList, Except.ok.injEq] at h
        subst h
        exact step_refl
      | cons a rest =>
        simp only [tacList, except_bind_ok] at h
        obtain ⟨t1, hvis, hrest⟩ := h
        exact step_trans (ihN _ _ _ hvis) (ihL _ _ _ hrest)

/-- Claim C10: throughout lowering of a function, every pseudo-register slot index
mentioned by any emitted TAC instruction is at least 1 and strictly below the
final variable counter, so each stack operand -4*index(%rbp) lies within the
4*counter bytes that AllocateStack subtracts from %rsp. -/
theorem c10_slotBounds (fuel : Nat) (p : AST) (body : FBody)
    (h : generateProgram fuel p = .ok body) :
    ∀ i ∈ body.instructions, ∀ q ∈ tacPositions i,
      1 ≤ q ∧ q < body.variableCount ∧ 4 * q + 4 ≤ 4 * body.variableCount := by
  unfold generateProgram at h
  split at h
  · rename_i id fdbody
    unfold generate at h
    simp only [except_bind_ok, except_pure_ok, Except.ok.injEq] at h
    obtain ⟨resolved, hres, t1, hvis, hbody⟩ := h
    have hstep := (tacBound fuel).1 resolved _ t1 hvis
    obtain ⟨h1, h2, hK⟩ := hstep (le_refl 1)
    have hinit : StOK (⟨⟨id, 1, 0, [], []⟩, none⟩ : TSt) (1 + 0) :=
      ⟨fun i hi => absurd hi (List.not_mem_nil i),
       fun pr hpr => absurd hpr (List.not_mem_nil pr),
       fun o ho => nomatch ho⟩
    have hok : StOK t1 (vcOf t1 + 0) := hK 0 hinit
    have hinstr : instrsOK t1.body.instructions t1.body.variableCount := hok.1
    split at hbody <;> subst hbody
    · intro i hi q hq
      rcases List.mem_append.mp hi with hi2 | hi2
      · have h4 := hinstr i hi2 q hq
        exact ⟨h4.1, h4.2, by show 4 * q + 4 ≤ 4 * t1.body.variableCount; omega⟩
      · simp only [List.mem_singleton] at hi2
        subst hi2
        simp [tacPositions, opPositions] at hq
    · intro i hi q hq
      have h4 := hinstr i hi q hq
      exact ⟨h4.1, h4.2, by show 4 * q + 4 ≤ 4 * t1.body.variableCount; omega⟩
  · simp at h

/-- Witness for the C10 theorem: the generator succeeds on a concrete
declaration-plus-return program and the resulting body satisfies the slot
bounds. -/
theorem c10_witness :
    generateProgram 4096 (.program (.functionDefinition "main" (.block [
      .declaration "a" (some (.constNode 0)),
      .returnStmt (some (.binary .ADD (.var "a") (.constNode 1)))]))) = .ok c10body ∧
    ∀ i ∈ c10body.instructions, ∀ q ∈ tacPositions i,
      1 ≤ q ∧ q < c10body.variableCount ∧ 4 * q + 4 ≤ 4 * c10body.variableCount :=
  ⟨by rfl, c10_slotBounds 4096 (.program (.functionDefinition "main" (.block [
    .declaration "a" (some (.constNode 0)),
    .returnStmt (some (.binary .ADD (.var "a") (.constNode 1)))]))) c10body (by rfl)⟩
